import Mathlib

/-!
Verification development for the hanabi-live game-state reducer
(`gameStateReducerFunction` in `src/packages/game/src/interfaces/StatsState.ts`
together with the narration helpers in `src/packages/client/src/game/rules/text.ts`).

The TypeScript source is shallowly embedded: the immer `produce` wrapper gives the
reducer pure-function semantics (the base state is never mutated and a thrown
exception propagates to the caller with no new state), which we model as a total
function `GameState -> Except String GameState`.  JavaScript numbers are modelled
as `Int`/`Nat`; a possibly-non-numeric field (such as an action suit index that may
be `undefined` at runtime) is an `Option Int`.  An out-of-range indexed access that
JavaScript would turn into a `TypeError` (reading a property of `undefined`) is
modelled as an `Except.error`.  A JavaScript property write through a negative or
undefined array index (which is invisible to later numeric reads) is modelled as a
no-op.

Repository code that is imported by the reducer but is not under `src/`
(the variant table, clue-token rules, hand rules, deck rules, play-stack rules and
the five sub-reducers) is modelled from the specification; each such definition
carries a doc comment starting with `Modelled from the spec:`.
-/

namespace HanabiLive

/-! ## Basic data model -/

inductive ClueType where
  | Color
  | Rank
deriving DecidableEq

structure MsgClue where
  type : ClueType
  value : Nat
deriving DecidableEq

inductive EndCondition where
  | InProgress
  | Normal
  | Strikeout
  | Timeout
  | TerminatedByPlayer
  | TerminatedByVote
  | SpeedrunFail
  | IdleTimeout
  | CharacterSoftlock
  | AllOrNothingFail
  | AllOrNothingSoftlock
deriving DecidableEq

inductive StackDirection where
  | Undecided
  | Up
  | Down
  | Finished
deriving DecidableEq

inductive CardStatus where
  | NeedsToBePlayed
  | AlreadyPlayed
  | Critical
deriving DecidableEq

inductive PaceRisk where
  | Null
  | LowRisk
  | MediumRisk
  | HighRisk
  | Zero
deriving DecidableEq

structure CardState where
  order : Nat
  suitIndex : Option Int
  rank : Option Int
  numPositiveClues : Nat
  inDoubleDiscard : Bool
  isKnownTrash : Bool
deriving DecidableEq

structure TurnState where
  currentPlayerIndex : Option Nat
  turnNum : Nat
  segment : Option Nat
deriving DecidableEq

structure LogEntry where
  turn : Nat
  text : String
deriving DecidableEq

structure ClueRecord where
  type : ClueType
  value : Nat
  giver : Nat
  target : Nat
  segment : Nat
  list : List Nat
  negativeList : List Nat
deriving DecidableEq

structure StrikeRecord where
  order : Nat
  segment : Option Nat
deriving DecidableEq

structure StatsState where
  maxScore : Int
  maxScorePerStack : List Int
  pace : Option Int
  paceRisk : PaceRisk
  finalRoundEffectivelyStarted : Bool
  cardsGotten : Int
  potentialCluesLost : Int
  cluesStillUsable : Option Int
  cluesStillUsableNotRounded : Option Int
  cardsGottenByNotes : Option Int
  doubleDiscard : Option Nat
  numSubsequentBlindPlays : Nat
  numSubsequentMisplays : Nat
  numAttemptedCardsPlayed : Nat
deriving DecidableEq

structure GameState where
  turn : TurnState
  log : List LogEntry
  deck : List CardState
  cardsRemainingInTheDeck : Int
  hands : List (List Nat)
  clues : List ClueRecord
  playStacks : List (List Nat)
  playStackDirections : List StackDirection
  playStackStarts : List (Option Int)
  hole : List Nat
  discardStacks : List (List Nat)
  clueTokens : Int
  strikes : List StrikeRecord
  score : Int
  numAttemptedCardsPlayed : Nat
  cardStatus : List (List CardStatus)
  stats : StatsState
deriving DecidableEq

/-- A player note; notes feed only the (modelled) statistics sub-reducer. -/
structure CardNote where
  text : String
deriving DecidableEq

/-- The discriminated action union of the reducer (`GameAction` in the source). -/
inductive GameAction where
  | clue (clue : MsgClue) (giver : Nat) (list : List Nat) (target : Nat)
      (ignoreNegative : Bool)
  | discard (playerIndex : Nat) (order : Nat) (suitIndex : Option Int)
      (rank : Option Int) (failed : Bool)
  | draw (playerIndex : Nat) (order : Nat) (suitIndex : Option Int) (rank : Option Int)
  | gameOver (endCondition : EndCondition) (playerIndex : Nat)
      (votes : Option (List Nat))
  | play (playerIndex : Nat) (order : Nat) (suitIndex : Option Int) (rank : Option Int)
  | playerTimes (playerTimes : List Int) (duration : Int)
  | strike (num : Nat) (turn : Nat) (order : Nat)
  | setEffMod
  | editNote
  | noteList
  | noteListPlayer
  | receiveNote
  | turn
  | cardIdentity
deriving DecidableEq

/-! ## Variant rule table and metadata (external collaborators) -/

/-- Modelled from the spec: the Variant Rule Table (sections 2 and 6) is an external
read-only data source, not under `src/`.  A variant carries the suit list, the clue
color and rank sets, and the boolean feature flags the reducer queries. -/
structure Variant where
  name : String
  suits : List String
  clueColors : List String
  ranks : List Nat
  throwItInAHole : Bool
  sudoku : Bool
  clueStarved : Bool
  cowAndPig : Bool
  duck : Bool
  upOrDown : Bool
  reversedSuits : Bool
deriving DecidableEq

/-- Modelled from the spec: the default five-suit variant used by the variant table. -/
def NO_VARIANT : Variant :=
  { name := "No Variant"
    suits := ["Red", "Yellow", "Green", "Blue", "Purple"]
    clueColors := ["Red", "Yellow", "Green", "Blue", "Purple"]
    ranks := [1, 2, 3, 4, 5]
    throwItInAHole := false
    sudoku := false
    clueStarved := false
    cowAndPig := false
    duck := false
    upOrDown := false
    reversedSuits := false }

/-- Modelled from the spec: `getVariant` (from the `@hanabi/data` package, not under
`src/`) looks a variant up by its identifier in the external rule table.  The table
here holds the default variant plus the feature-flag variants the reducer branches
on (throw-it-in-a-hole, clue-starved, cow-and-pig, sudoku, up-or-down). -/
def getVariant (variantName : String) : Variant :=
  if variantName == "Throw It in a Hole (5 Suits)" then
    { NO_VARIANT with name := variantName, throwItInAHole := true }
  else if variantName == "Clue Starved (5 Suits)" then
    { NO_VARIANT with name := variantName, clueStarved := true }
  else if variantName == "Cow & Pig (5 Suits)" then
    { NO_VARIANT with name := variantName, cowAndPig := true }
  else if variantName == "Sudoku (5 Suits)" then
    { NO_VARIANT with name := variantName, sudoku := true }
  else if variantName == "Up or Down (5 Suits)" then
    { NO_VARIANT with name := variantName, upOrDown := true }
  else
    NO_VARIANT

/-- Modelled from the spec: `hasReversedSuits` (variant rules, not under `src/`)
reports whether the variant has order-flexible reversed suits. -/
def hasReversedSuits (v : Variant) : Bool :=
  v.reversedSuits || v.upOrDown

structure GameOptions where
  variantName : String
  timed : Bool
  cardCycle : Bool
deriving DecidableEq

/-- Static per-game configuration (`GameMetadata` in the source).  `numPlayers` is
modelled from the spec for the initial-deal computation. -/
structure GameMetadata where
  options : GameOptions
  playerNames : List String
  characterAssignments : List String
  numPlayers : Nat
deriving DecidableEq

/-- Translation of `getPlayerName` from `src/packages/client/src/game/rules/text.ts`. -/
def getPlayerName (playerIndex : Nat) (m : GameMetadata) : String :=
  (m.playerNames.get? playerIndex).getD "[unknown]"

/-- Modelled from the spec: `getCharacterNameForPlayer` (from `@hanabi/game`, not
under `src/`) returns the detrimental-character name assigned to a player, or the
empty string when there is none. -/
def getCharacterNameForPlayer (playerIndex : Nat) (assignments : List String) : String :=
  (assignments.get? playerIndex).getD ""

/-! ## Clue-token rules (modelled) -/

/-- The clue-token cap of the base rules. -/
def MAX_CLUE_NUM : Int := 8

/-- Modelled from the spec: `clueTokensRules.getAdjusted` (not under `src/`) adjusts
a token amount for clue-starved variants. -/
def getAdjusted (amount : Int) (v : Variant) : Int :=
  if v.clueStarved then amount * 2 else amount

/-- Modelled from the spec: `clueTokensRules.gain` (not under `src/`).  A
non-failed discard regrants a clue token, and a play regrants one exactly as the
stack-completed bonus (section 4.1, Scenario 2); both are subject to the
variant-defined token cap. -/
def clueTokensGain (a : GameAction) (clueTokens : Int) (v : Variant)
    (playStackComplete : Bool) : Int :=
  let generated :=
    match a with
    | GameAction.play _ _ _ _ => playStackComplete
    | GameAction.discard _ _ _ _ failed => !failed
    | _ => false
  if generated && decide (clueTokens < getAdjusted MAX_CLUE_NUM v) then
    clueTokens + 1
  else
    clueTokens

/-! ## Card, hand and deck rules (modelled) -/

/-- Modelled from the spec: `cardRules.isClued` (not under `src/`); a card is clued
when at least one positive clue has touched it. -/
def isClued (c : CardState) : Bool :=
  c.numPositiveClues > 0

/-- Modelled from the spec: `handRules.chopIndex` (not under `src/`).  The chop is
the rightmost least-protected card: the first card from index 0 that no clue has
touched, or the newest (last, left-most) card when the whole hand is clued. -/
def chopIndex (hand : List Nat) (deck : List CardState) : Nat :=
  match hand.findIdx? (fun o => !((deck.find? (fun c => c.order == o)).any isClued)) with
  | some i => i
  | none => hand.length - 1

/-- Modelled from the spec: `deckRules.isInitialDealFinished` (not under `src/`).
The number of cards dealt per player in the base rules. -/
def cardsPerHand (numPlayers : Nat) : Nat :=
  if numPlayers ≤ 3 then 5 else if numPlayers ≤ 5 then 4 else 3

/-- Modelled from the spec: the total card count of the variant deck. -/
def totalCards (v : Variant) : Nat :=
  10 * v.suits.length

/-- Modelled from the spec: `deckRules.isInitialDealFinished` (not under `src/`);
the initial deal is finished when the remaining-deck counter has come down to the
full deck minus one hand of cards for every player. -/
def isInitialDealFinished (cardsRemainingInTheDeck : Int) (m : GameMetadata) : Bool :=
  cardsRemainingInTheDeck ==
    (totalCards (getVariant m.options.variantName) : Int)
      - (m.numPlayers * cardsPerHand m.numPlayers : Nat)

/-! ## Narration service (`src/packages/client/src/game/rules/text.ts`) -/

/-- The word table of `text.ts` (`WORDS`). -/
def WORDS : List String := ["zero", "one", "two", "three", "four", "five", "six"]

/-- The hypothetical marker of `text.ts` (`HYPO_PREFIX` in the source). -/
def HYPO_MARK : String := "[Hypo] "

/-- Modelled from the spec: `getCardName` (from `@hanabi/game`, not under `src/`)
renders a card as its suit name and rank. -/
def getCardName (suitIndex rank : Option Int) (v : Variant) : String :=
  ((suitIndex.bind (fun i => if 0 ≤ i then v.suits.get? i.toNat else none)).getD
      "Unknown")
    ++ " " ++ ((rank.map toString).getD "Unknown")

/-- Modelled from the spec: `getCardSlot` (from `@hanabi/game`, not under `src/`);
the slot of a card is the hand length minus its index, or nothing when the card is
not in the hand. -/
def getCardSlot (order : Nat) (hand : List Nat) : Option Nat :=
  match hand.findIdx? (fun x => x == order) with
  | some i => some (hand.length - i)
  | none => none

/-- Modelled from the spec: `getClueName` (from `@hanabi/game`, not under `src/`)
renders a clue as a color name or a rank numeral. -/
def getClueName (t : ClueType) (value : Nat) (v : Variant)
    (characterName : String) : String :=
  match t with
  | ClueType.Color => (v.clueColors.get? value).getD "unknown"
  | ClueType.Rank => toString value

/-- Translation of `getClueActionName` from `text.ts`. -/
def getClueActionName (msgClue : MsgClue) (variant : Variant)
    (characterName : String) : String :=
  if variant.cowAndPig then
    match msgClue.type with
    | ClueType.Color => "moos"
    | ClueType.Rank => "oinks"
  else if variant.duck || characterName == "Quacker" then
    "quacks"
  else
    "clues"

/-- Insertion step for the JavaScript `Array.prototype.sort` of slot numbers. -/
def insertSorted (x : Nat) : List Nat → List Nat
  | [] => [x]
  | y :: ys => if x ≤ y then x :: y :: ys else y :: insertSorted x ys

/-- The `slots.sort((a, b) => a - b)` call of `text.ts`, as an insertion sort. -/
def sortNats (l : List Nat) : List Nat :=
  l.foldr insertSorted []

/-- Insertion step for the JavaScript `Array.prototype.sort` of player names. -/
def insertSortedString (x : String) : List String → List String
  | [] => [x]
  | y :: ys => if x ≤ y then x :: y :: ys else y :: insertSortedString x ys

/-- The `playerNames.sort()` call of `text.ts`, as an insertion sort. -/
def sortStrings (l : List String) : List String :=
  l.foldr insertSortedString []

/-- The slot list built by the special-variant branch of `clue` in `text.ts`; the
`assertDefined` of the source throws when a touched card is not in the target hand,
which we model as `none`. -/
def slotsOfList (orders : List Nat) (hand : List Nat) : Option (List Nat) :=
  match orders with
  | [] => some []
  | o :: rest =>
    match getCardSlot o hand, slotsOfList rest hand with
    | some sl, some rest2 => some (sl :: rest2)
    | _, _ => none

/-- Translation of `clue` from `text.ts`.  The `assertDefined` failure of the special-variant
branch surfaces as an `Except.error`. -/
def textClue (cl : MsgClue) (giver : Nat) (list : List Nat) (target : Nat)
    (targetHand : List Nat) (hypothetical : Bool) (m : GameMetadata) :
    Except String String :=
  let giverName := (m.playerNames.get? giver).getD "unknown"
  let targetName := (m.playerNames.get? target).getD "unknown"
  let word := (WORDS.get? list.length).getD "unknown"
  let variant := getVariant m.options.variantName
  let hypoMark := if hypothetical then HYPO_MARK else ""
  let characterName := getCharacterNameForPlayer giver m.characterAssignments
  if variant.cowAndPig || variant.duck || characterName == "Quacker" then
    match slotsOfList list targetHand with
    | none => Except.error "Failed to get the slot for a clued card"
    | some slots =>
      let actionName := getClueActionName cl variant characterName
      let targetSuffix := if targetName.endsWith "s" then "\x27" else "\x27s"
      let sorted := sortNats slots
      let slotWord := if sorted.length == 1 then "slot" else "slots"
      let slotsText := String.intercalate "/" (sorted.map toString)
      Except.ok (hypoMark ++ giverName ++ " " ++ actionName ++ " at " ++ targetSuffix
        ++ " " ++ slotWord ++ " " ++ slotsText)
  else
    let clueName0 := getClueName cl.type cl.value variant characterName
    let clueName := if list.length != 1 then clueName0 ++ "s" else clueName0
    Except.ok (hypoMark ++ giverName ++ " tells " ++ targetName ++ " about " ++ word
      ++ " " ++ clueName)

/-- Translation of `getPlayerNames` from `text.ts` (used for termination votes). -/
def getPlayerNamesText (playerIndices : Option (List Nat)) (m : GameMetadata) :
    String :=
  match playerIndices with
  | none => "The players"
  | some idxs =>
    let playerNames := sortStrings (idxs.map (fun i => getPlayerName i m))
    if playerNames.length == 2 then
      (playerNames.get? 0).getD "" ++ " and " ++ (playerNames.get? 1).getD ""
    else
      String.intercalate ", " playerNames.dropLast ++ ", and "
        ++ (playerNames.getLast?.getD "")

/-- Translation of `gameOver` from `text.ts`. -/
def textGameOver (endCondition : EndCondition) (playerIndex : Nat) (score : Int)
    (m : GameMetadata) (votes : Option (List Nat)) : String :=
  let playerName := getPlayerName playerIndex m
  match endCondition with
  | EndCondition.InProgress => "Players score " ++ toString score ++ " points."
  | EndCondition.Normal => "Players score " ++ toString score ++ " points."
  | EndCondition.Strikeout => "Players lose!"
  | EndCondition.Timeout => playerName ++ " ran out of time!"
  | EndCondition.TerminatedByPlayer => playerName ++ " terminated the game!"
  | EndCondition.TerminatedByVote =>
      getPlayerNamesText votes m ++ " voted to terminate the game!"
  | EndCondition.SpeedrunFail => "Players lose!"
  | EndCondition.IdleTimeout => "Players were idle for too long."
  | EndCondition.CharacterSoftlock => playerName ++ " was left with 0 clues!"
  | EndCondition.AllOrNothingFail => "Players lose!"
  | EndCondition.AllOrNothingSoftlock =>
      playerName ++ " was left with 0 clues and 0 cards!"

/-- Translation of `play` from `text.ts`. -/
def textPlay (playerIndex : Nat) (suitIndex rank : Option Int) (slot : Option Nat)
    (touched : Bool) (playing shadowing hypothetical : Bool) (m : GameMetadata) :
    String :=
  let variant := getVariant m.options.variantName
  let playerName := getPlayerName playerIndex m
  let cardName :=
    if suitIndex == some (-1) || rank == some (-1)
        || (variant.throwItInAHole && (playing || shadowing)) then
      "a card"
    else
      getCardName suitIndex rank variant
  let location := match slot with
    | none => "the deck"
    | some n => "slot #" ++ toString n
  let suffix := if !touched then " (blind)" else ""
  let hypoMark := if hypothetical then HYPO_MARK else ""
  hypoMark ++ playerName ++ " plays " ++ cardName ++ " from " ++ location ++ suffix

/-- Translation of `discard` from `text.ts`. -/
def textDiscard (playerIndex : Nat) (suitIndex rank : Option Int) (failed : Bool)
    (slot : Option Nat) (touched : Bool) (playing shadowing hypothetical : Bool)
    (m : GameMetadata) : String :=
  let variant := getVariant m.options.variantName
  let playerName := getPlayerName playerIndex m
  let verb :=
    if failed then
      if variant.throwItInAHole && (playing || shadowing) then "plays"
      else "fails to play"
    else "discards"
  let cardName :=
    if suitIndex == some (-1) || rank == some (-1) then "a card"
    else getCardName suitIndex rank variant
  let location := match slot with
    | none => "the deck"
    | some n => "slot #" ++ toString n
  let suffix0 := if failed && touched && !variant.throwItInAHole then " (clued)" else ""
  let suffix := if failed && slot != none && !touched then " (blind)" else suffix0
  let hypoMark := if hypothetical then HYPO_MARK else ""
  hypoMark ++ playerName ++ " " ++ verb ++ " " ++ cardName ++ " from " ++ location
    ++ suffix

/-- Translation of `pad2` from `text.ts`. -/
def pad2 (num : Nat) : String :=
  if num < 10 then "0" ++ toString num else toString num

/-- Translation of `millisecondsToClockString` from `text.ts` (negative values measure untimed
games); `Math.ceil(time / 1000)` on a non-negative integer is `(time + 999) / 1000`. -/
def millisecondsToClockString (milliseconds : Int) : String :=
  let time := milliseconds.natAbs
  let seconds := (time + 999) / 1000
  toString (seconds / 60) ++ ":" ++ pad2 (seconds % 60)

/-! ## Sub-reducers (modelled from the spec; their source files are not under `src/`) -/

/-- Modelled from the spec: `cardsReducer` (section 4.2, not under `src/`) returns a
new deck whose card knowledge reflects the action: a clue marks the touched cards
and a draw appends the drawn card to the deck. -/
def cardsReducer (deck : List CardState) (a : GameAction) (s : GameState)
    (m : GameMetadata) : List CardState :=
  match a with
  | GameAction.clue _ _ list _ _ =>
      deck.map (fun c =>
        if list.contains c.order then
          { c with numPositiveClues := c.numPositiveClues + 1 }
        else c)
  | GameAction.draw _ o si r =>
      deck ++ [{ order := o, suitIndex := si, rank := r, numPositiveClues := 0,
                 inDoubleDiscard := false, isKnownTrash := false }]
  | _ => deck

/-- Turn advancement on a turn-ending action (helper of the modelled turn
sub-reducer). -/
def advanceTurn (t : TurnState) (m : GameMetadata) : TurnState :=
  { currentPlayerIndex := t.currentPlayerIndex.map (fun i => (i + 1) % m.numPlayers)
    turnNum := t.turnNum + 1
    segment := some ((t.segment.getD 0) + 1) }

/-- Modelled from the spec: `turnReducer` (section 4.3, not under `src/`) advances
the current player and the turn counter on turn-ending actions, opens the first
segment when the initial deal finishes, and ends the game on `gameOver`. -/
def turnReducer (t : TurnState) (a : GameAction) (s : GameState)
    (m : GameMetadata) : TurnState :=
  match a with
  | GameAction.clue _ _ _ _ _ => advanceTurn t m
  | GameAction.play _ _ _ _ => advanceTurn t m
  | GameAction.discard _ _ _ _ _ => advanceTurn t m
  | GameAction.draw _ _ _ _ =>
      if isInitialDealFinished s.cardsRemainingInTheDeck m && t.segment == none then
        { t with segment := some 0 }
      else t
  | GameAction.gameOver _ _ _ => { t with currentPlayerIndex := none }
  | _ => t

/-- Modelled from the spec: `statsReducer` (section 4.4, not under `src/`).  It
carries the derived statistics forward, mirrors the attempted-play counter of the
draft state, and maintains the consecutive blind-play and misplay counters that are
reset by any non-matching action. -/
def statsReducer (stats : StatsState) (a : GameAction) (s0 s1 : GameState)
    (playing shadowing : Bool) (m : GameMetadata)
    (ourNotes : Option (List CardNote)) : StatsState :=
  { stats with
    numAttemptedCardsPlayed := s1.numAttemptedCardsPlayed
    numSubsequentBlindPlays :=
      match a with
      | GameAction.play _ o _ _ =>
          if (s0.deck.find? (fun c => c.order == o)).any isClued then 0
          else stats.numSubsequentBlindPlays + 1
      | GameAction.clue _ _ _ _ _ => 0
      | GameAction.discard _ _ _ _ _ => 0
      | _ => stats.numSubsequentBlindPlays
    numSubsequentMisplays :=
      match a with
      | GameAction.discard _ _ _ _ failed =>
          if failed then stats.numSubsequentMisplays + 1 else 0
      | GameAction.play _ _ _ _ => 0
      | GameAction.clue _ _ _ _ _ => 0
      | _ => stats.numSubsequentMisplays }

/-- Modelled from the spec: `ddaReducer` (section 4.5, not under `src/`): exactly
the double-discard candidate card is flagged and every other card is cleared. -/
def ddaReducer (deck : List CardState) (doubleDiscardCard : Option Nat)
    (currentPlayerIndex : Option Nat) : List CardState :=
  deck.map (fun c => { c with inDoubleDiscard := doubleDiscardCard == some c.order })

/-- Modelled from the spec: `knownTrashReducer` (section 4.6, not under `src/`)
recomputes from scratch which cards are provably worthless given the stacks. -/
def knownTrashReducer (deck : List CardState) (playStacks : List (List Nat))
    (playStackDirections : List StackDirection) (playStackStarts : List (Option Int))
    (v : Variant) : List CardState :=
  deck.map (fun c =>
    { c with isKnownTrash :=
        match c.suitIndex, c.rank with
        | some si, some r =>
            decide (0 ≤ si) &&
              decide (r ≤ (((playStacks.get? si.toNat).getD []).length : Int))
        | _, _ => false })

/-- Modelled from the spec: `playStacksRules.direction` (not under `src/`) resolves
the direction metadata of a suit from the cards already on its stack (section 3:
resolved lazily, only once a play on that suit has occurred). -/
def playStacksDirection (suitIndex : Nat) (playStack : List Nat)
    (deck : List CardState) (v : Variant) : StackDirection :=
  if playStack.isEmpty then StackDirection.Undecided
  else if playStack.length == v.ranks.length then StackDirection.Finished
  else StackDirection.Up

/-- Modelled from the spec: `playStacksRules.stackStartRank` (not under `src/`)
resolves the starting rank of a sudoku stack from its first card. -/
def stackStartRank (playStack : List Nat) (deck : List CardState) (v : Variant) :
    Option Int :=
  playStack.head?.bind (fun o =>
    (deck.find? (fun c => c.order == o)).bind (fun c => c.rank))

/-- Modelled from the spec: `cardRules.status` (not under `src/`); the status of a
(suit, rank) cell depends on the stack progress of the suit. -/
def computeCardStatus (suitIndex rank : Nat) (deck : List CardState)
    (playStacks : List (List Nat)) (playStackDirections : List StackDirection)
    (playStackStarts : List (Option Int)) (v : Variant) : CardStatus :=
  if rank ≤ ((playStacks.get? suitIndex).getD []).length then
    CardStatus.AlreadyPlayed
  else
    CardStatus.NeedsToBePlayed

/-! ## The action branch of `gameStateReducerFunction` -/

/-- The card-cycling condition of `throwItInAHolePlayedOrMisplayed`: it redirects
exactly the plays and the failed discards of a throw-it-in-a-hole variant while
playing or shadowing and the game is not finished. -/
def holeRedirects (a : GameAction) (variant : Variant)
    (playing shadowing finished : Bool) : Bool :=
  (variant.throwItInAHole && (playing || shadowing) && !finished) &&
    (match a with
     | GameAction.play _ _ _ _ => true
     | GameAction.discard _ _ _ _ failed => failed
     | _ => false)

/-- Translation of `throwItInAHolePlayedOrMisplayed` from `StatsState.ts`: when the guard passes,
the card order is pushed onto `hole`, the attempted-plays counter is incremented
and `true` is returned; otherwise the state is untouched and `false` is returned. -/
def throwItInAHolePlayedOrMisplayed (s : GameState) (a : GameAction)
    (variant : Variant) (playing shadowing finished : Bool) : GameState × Bool :=
  if !variant.throwItInAHole || (!playing && !shadowing) || finished then
    (s, false)
  else
    match a with
    | GameAction.discard _ order _ _ failed =>
        if failed then
          (({ s with hole := s.hole ++ [order],
                     numAttemptedCardsPlayed := s.numAttemptedCardsPlayed + 1 } :
             GameState),
           true)
        else (s, false)
    | GameAction.play _ order _ _ =>
        (({ s with hole := s.hole ++ [order],
                   numAttemptedCardsPlayed := s.numAttemptedCardsPlayed + 1 } :
           GameState),
         true)
    | _ => (s, false)

/-- Translation of `cardCycle` from `StatsState.ts`: with the card-cycling option on, the chop
card rotates to the end of the hand array (the left-most position) unless it
already is the last card. -/
def cardCycle (hand : List Nat) (deck : List CardState) (m : GameMetadata) :
    List Nat :=
  if !m.options.cardCycle then hand
  else
    let c := chopIndex hand deck
    if c == hand.length - 1 then hand
    else
      match hand.get? c with
      | none => hand
      | some removedCardOrder => hand.eraseIdx c ++ [removedCardOrder]

/-- The `clue` case of the action switch.  The clue-token debit happens before the
turn-segment sequencing check, exactly as in the source. -/
def clueBranch (s : GameState) (cl : MsgClue) (giver : Nat) (list : List Nat)
    (target : Nat) (ignoreNegative : Bool) (variant : Variant)
    (hypothetical : Bool) (m : GameMetadata) : Except String GameState :=
  let s1 := { s with clueTokens := s.clueTokens - getAdjusted 1 variant }
  match s1.turn.segment with
  | none =>
      Except.error "A \"clue\" action happened before all of the initial cards were dealt."
  | some seg =>
    match (if ignoreNegative then some [] else
      (s1.hands.get? target).map (fun h => h.filter (fun i => !(list.contains i)))) with
    | none => Except.error "TypeError: Cannot read properties of undefined (reading filter)"
    | some negativeList =>
      let s2 := { s1 with clues := s1.clues ++
        [({ type := cl.type, value := cl.value, giver := giver, target := target,
            segment := seg, list := list, negativeList := negativeList } :
          ClueRecord)] }
      let targetHand := (s2.hands.get? target).getD []
      match textClue cl giver list target targetHand hypothetical m with
      | Except.error e => Except.error e
      | Except.ok text =>
        let s3 := { s2 with log := s2.log ++
          [({ turn := s2.turn.turnNum + 1, text := text } : LogEntry)] }
        match s3.hands.get? giver with
        | some giverHand =>
            Except.ok { s3 with hands := s3.hands.set giver (cardCycle giverHand s3.deck m) }
        | none =>
            if m.options.cardCycle then
              Except.error "TypeError: Cannot read properties of undefined (reading length)"
            else Except.ok s3

/-- The hand-removal step shared by `discard` and `play`: the slot is the hand
length minus the removal index when the card is found (`handIndex !== -1`), and
`null` with the hand untouched otherwise (a misplay from the deck). -/
def removeFromHand (hand : List Nat) (order : Nat) : (Option Nat) × List Nat :=
  match hand.findIdx? (fun x => x == order) with
  | some i => (some (hand.length - i), hand.eraseIdx i)
  | none => (none, hand)

/-- The discard-stack step of the `discard` case: skipped entirely when the card
is redirected to the hole, otherwise the suit index is validated, the card is
pushed onto the discard stack of its suit and clue tokens may be regranted. -/
def discardStep (sA : GameState) (playerIndex order : Nat)
    (suitIndex rank : Option Int) (failed : Bool) (variant : Variant)
    (playing shadowing finished : Bool) : Except String GameState :=
  let pr := throwItInAHolePlayedOrMisplayed sA
    (GameAction.discard playerIndex order suitIndex rank failed) variant
    playing shadowing finished
  if pr.2 then Except.ok pr.1
  else
    match suitIndex with
    | none => Except.error "The suit index for the discarded card was: undefined"
    | some i =>
      if i < 0 then
        Except.error ("The suit index for the discarded card was: " ++ toString i)
      else
        match pr.1.discardStacks.get? i.toNat with
        | none => Except.error "TypeError: Cannot read properties of undefined (reading push)"
        | some stack =>
          Except.ok { pr.1 with
            discardStacks := pr.1.discardStacks.set i.toNat (stack ++ [order]),
            clueTokens := clueTokensGain
              (GameAction.discard playerIndex order suitIndex rank failed)
              pr.1.clueTokens variant false }

/-- The narration step of the `discard` case. -/
def discardFinish (sB : GameState) (playerIndex order : Nat)
    (suitIndex rank : Option Int) (failed : Bool) (slot : Option Nat)
    (playing shadowing hypothetical : Bool) (m : GameMetadata) :
    Except String GameState :=
  match sB.deck.get? order with
  | none => Except.error "TypeError: Cannot read properties of undefined (reading card)"
  | some c =>
    let text := textDiscard playerIndex suitIndex rank failed slot (isClued c)
      playing shadowing hypothetical m
    Except.ok { sB with log := sB.log ++
      [({ turn := sB.turn.turnNum + 1, text := text } : LogEntry)] }

/-- The `discard` case of the action switch. -/
def discardBranch (s : GameState) (playerIndex order : Nat)
    (suitIndex rank : Option Int) (failed : Bool) (variant : Variant)
    (playing shadowing finished hypothetical : Bool) (m : GameMetadata) :
    Except String GameState :=
  match s.hands.get? playerIndex with
  | none => Except.error "TypeError: Cannot read properties of undefined (reading indexOf)"
  | some hand =>
    let rm := removeFromHand hand order
    let sA := { s with hands := s.hands.set playerIndex rm.2 }
    match discardStep sA playerIndex order suitIndex rank failed variant
        playing shadowing finished with
    | Except.error e => Except.error e
    | Except.ok sB =>
        discardFinish sB playerIndex order suitIndex rank failed rm.1
          playing shadowing hypothetical m

/-- The `draw` case of the action switch. -/
def drawBranch (s : GameState) (playerIndex order : Nat)
    (suitIndex rank : Option Int) (m : GameMetadata) : Except String GameState :=
  let s1 := { s with cardsRemainingInTheDeck := s.cardsRemainingInTheDeck - 1 }
  let s2 :=
    match s1.hands.get? playerIndex with
    | some hand => { s1 with hands := s1.hands.set playerIndex (hand ++ [order]) }
    | none => s1
  if isInitialDealFinished s2.cardsRemainingInTheDeck m then
    let pname :=
      match s2.turn.currentPlayerIndex with
      | some i => (m.playerNames.get? i).getD "undefined"
      | none => "undefined"
    Except.ok { s2 with log := s2.log ++
      [({ turn := s2.turn.turnNum + 1, text := pname ++ " goes first" } : LogEntry)] }
  else
    Except.ok s2

/-- The `gameOver` case of the action switch: a non-normal end condition
hard-resets the score to zero before the narration entry is appended. -/
def gameOverBranch (s : GameState) (endCondition : EndCondition)
    (playerIndex : Nat) (votes : Option (List Nat)) (m : GameMetadata) :
    Except String GameState :=
  let s1 := if endCondition ≠ EndCondition.Normal then { s with score := 0 } else s
  let text := textGameOver endCondition playerIndex s1.score m votes
  Except.ok { s1 with log := s1.log ++
    [({ turn := s1.turn.turnNum + 1, text := text } : LogEntry)] }

/-- The play-stack step of the `play` case: skipped entirely when the card is
redirected to the hole, otherwise the suit index is validated, the card is pushed
onto the play stack of its suit and clue tokens may be regranted with the
stack-completed bonus (`playStack.length === 5` after the push). -/
def playStep (sA : GameState) (playerIndex order : Nat)
    (suitIndex rank : Option Int) (variant : Variant)
    (playing shadowing finished : Bool) : Except String GameState :=
  let pr := throwItInAHolePlayedOrMisplayed sA
    (GameAction.play playerIndex order suitIndex rank) variant
    playing shadowing finished
  if pr.2 then Except.ok pr.1
  else
    match suitIndex with
    | none => Except.error "The suit index for the played card was: undefined"
    | some i =>
      if i < 0 then
        Except.error ("The suit index for the played card was: " ++ toString i)
      else
        match pr.1.playStacks.get? i.toNat with
        | none => Except.error "TypeError: Cannot read properties of undefined (reading push)"
        | some stack =>
          Except.ok { pr.1 with
            playStacks := pr.1.playStacks.set i.toNat (stack ++ [order]),
            clueTokens := clueTokensGain
              (GameAction.play playerIndex order suitIndex rank)
              pr.1.clueTokens variant ((stack ++ [order]).length == 5) }

/-- The score-and-narration step of the `play` case: the point is gained
unconditionally (also on hole redirection) before the log entry is appended. -/
def playFinish (sB : GameState) (playerIndex order : Nat)
    (suitIndex rank : Option Int) (slot : Option Nat)
    (playing shadowing hypothetical : Bool) (m : GameMetadata) :
    Except String GameState :=
  let sC := { sB with score := sB.score + 1 }
  match sC.deck.get? order with
  | none => Except.error "TypeError: Cannot read properties of undefined (reading card)"
  | some c =>
    let text := textPlay playerIndex suitIndex rank slot (isClued c)
      playing shadowing hypothetical m
    Except.ok { sC with log := sC.log ++
      [({ turn := sC.turn.turnNum + 1, text := text } : LogEntry)] }

/-- The `play` case of the action switch. -/
def playBranch (s : GameState) (playerIndex order : Nat)
    (suitIndex rank : Option Int) (variant : Variant)
    (playing shadowing finished hypothetical : Bool) (m : GameMetadata) :
    Except String GameState :=
  match s.hands.get? playerIndex with
  | none => Except.error "TypeError: Cannot read properties of undefined (reading indexOf)"
  | some hand =>
    let rm := removeFromHand hand order
    let sA := { s with hands := s.hands.set playerIndex rm.2 }
    match playStep sA playerIndex order suitIndex rank variant
        playing shadowing finished with
    | Except.error e => Except.error e
    | Except.ok sB =>
        playFinish sB playerIndex order suitIndex rank rm.1
          playing shadowing hypothetical m

/-- The `playerTimes` case of the action switch: one narration entry per player
plus the total game duration; no other state is touched. -/
def playerTimesBranch (s : GameState) (times : List Int) (duration : Int)
    (m : GameMetadata) : Except String GameState :=
  let entries : List LogEntry := times.enum.map (fun p =>
    let modifier : Int := if m.options.timed then 1 else -1
    let milliseconds := p.2 * modifier
    let durationString := millisecondsToClockString milliseconds
    let playerName := getPlayerName p.1 m
    { turn := s.turn.turnNum + 1,
      text :=
        if m.options.timed then playerName ++ " had " ++ durationString ++ " left"
        else playerName ++ " took: " ++ durationString })
  let clockString := millisecondsToClockString duration
  Except.ok { s with log := s.log ++ entries ++
    [({ turn := s.turn.turnNum + 1,
        text := "The total game duration was: " ++ clockString } : LogEntry)] }

/-- The `strike` case of the action switch: a strike record is appended; no log
entry is produced by this branch. -/
def strikeBranch (s : GameState) (order : Nat) : Except String GameState :=
  Except.ok { s with strikes := s.strikes ++
    [({ order := order, segment := s.turn.segment } : StrikeRecord)] }

/-- The action-specific switch of `gameStateReducerFunction`. -/
def actionBranch (s : GameState) (a : GameAction) (variant : Variant)
    (playing shadowing finished hypothetical : Bool) (m : GameMetadata) :
    Except String GameState :=
  match a with
  | GameAction.clue cl giver list target ign =>
      clueBranch s cl giver list target ign variant hypothetical m
  | GameAction.discard pI o si r failed =>
      discardBranch s pI o si r failed variant playing shadowing finished hypothetical m
  | GameAction.draw pI o si r => drawBranch s pI o si r m
  | GameAction.gameOver e pI votes => gameOverBranch s e pI votes m
  | GameAction.play pI o si r =>
      playBranch s pI o si r variant playing shadowing finished hypothetical m
  | GameAction.playerTimes times duration => playerTimesBranch s times duration m
  | GameAction.strike _ _ o => strikeBranch s o
  | _ => Except.ok s

/-! ## The derivation pipeline run after the action branch -/

/-- The stack-direction resolution step of the pipeline: only after a `play` in an
order-flexible variant, and only for a suit index other than the `-1` sentinel
(mirroring `action.suitIndex !== -1`, which a non-numeric index also passes).  A
write through a negative or undefined array index is invisible to later numeric
reads and is modelled as a no-op. -/
def resolveDirections (s : GameState) (a : GameAction) (variant : Variant) :
    GameState :=
  { s with playStackDirections :=
      match a with
      | GameAction.play _ _ si _ =>
          if (hasReversedSuits variant || variant.sudoku) && si != some (-1) then
            match si with
            | some i =>
                if 0 ≤ i then
                  s.playStackDirections.set i.toNat
                    (playStacksDirection i.toNat ((s.playStacks.get? i.toNat).getD [])
                      s.deck variant)
                else s.playStackDirections
            | none => s.playStackDirections
          else s.playStackDirections
      | _ => s.playStackDirections }

/-- The sudoku stack-starting-rank resolution step of the pipeline. -/
def resolveStackStarts (s : GameState) (a : GameAction) (variant : Variant) :
    GameState :=
  { s with playStackStarts :=
      match a with
      | GameAction.play _ _ si _ =>
          if variant.sudoku then
            match si with
            | some i =>
                if 0 ≤ i then
                  s.playStackStarts.set i.toNat
                    (stackStartRank ((s.playStacks.get? i.toNat).getD []) s.deck variant)
                else s.playStackStarts
            | none => s.playStackStarts
          else s.playStackStarts
      | _ => s.playStackStarts }

/-- A single cell update of the card-status table. -/
def setStatusCell (grid : List (List CardStatus)) (i j : Nat) (x : CardStatus) :
    List (List CardStatus) :=
  match grid.get? i with
  | none => grid
  | some row => grid.set i (row.set j x)

/-- The card-status recomputation of the pipeline (`state.cardStatus[suitIndex][rank]`
for every rank of the affected suit).  Reading `cardStatus` at a negative or
undefined suit index yields `undefined` in JavaScript and the subsequent property
write throws, which is modelled as an error. -/
def statusTableCore (grid : List (List CardStatus)) (deck : List CardState)
    (playStacks : List (List Nat)) (playStackDirections : List StackDirection)
    (playStackStarts : List (Option Int)) (si r : Option Int) (variant : Variant) :
    Except String (List (List CardStatus)) :=
  if si != some (-1) && r != some (-1) then
    match si with
    | some i =>
      if 0 ≤ i then
        match grid.get? i.toNat with
        | some _ =>
            Except.ok (variant.ranks.foldl
              (fun g rk => setStatusCell g i.toNat rk
                (computeCardStatus i.toNat rk deck playStacks playStackDirections
                  playStackStarts variant))
              grid)
        | none => Except.error "TypeError: Cannot set properties of undefined (setting cardStatus)"
      else Except.error "TypeError: Cannot set properties of undefined (setting cardStatus)"
    | none => Except.error "TypeError: Cannot set properties of undefined (setting cardStatus)"
  else Except.ok grid

def statusTable (grid : List (List CardStatus)) (deck : List CardState)
    (playStacks : List (List Nat)) (playStackDirections : List StackDirection)
    (playStackStarts : List (Option Int)) (a : GameAction) (variant : Variant) :
    Except String (List (List CardStatus)) :=
  match a with
  | GameAction.play _ _ si r =>
      statusTableCore grid deck playStacks playStackDirections playStackStarts
        si r variant
  | GameAction.discard _ _ si r _ =>
      statusTableCore grid deck playStacks playStackDirections playStackStarts
        si r variant
  | _ => Except.ok grid

/-- The fixed derivation pipeline run after the action branch (card identity, stack
direction, stack start, card status, turn, statistics, DDA, known trash), in the
exact order of the source.  `s0` is the original pre-action state (what `original`
yields on the immer draft) and `s1` the state after the action branch. -/
def applyPipeline (s0 s1 : GameState) (a : GameAction) (variant : Variant)
    (playing shadowing : Bool) (m : GameMetadata)
    (ourNotes : Option (List CardNote)) : Except String GameState :=
  let s2 := { s1 with deck := cardsReducer s0.deck a s1 m }
  let s3 := resolveDirections s2 a variant
  let s4 := resolveStackStarts s3 a variant
  match statusTable s4.cardStatus s4.deck s4.playStacks s4.playStackDirections
      s4.playStackStarts a variant with
  | Except.error e => Except.error e
  | Except.ok table =>
    let s5 := { s4 with cardStatus := table }
    let s6 := { s5 with turn := turnReducer s0.turn a s5 m }
    let s7 := { s6 with
      stats := statsReducer s0.stats a s0 s6 playing shadowing m ourNotes }
    let s8 := { s7 with
      deck := ddaReducer s7.deck s7.stats.doubleDiscard s7.turn.currentPlayerIndex }
    Except.ok { s8 with
      deck := knownTrashReducer s8.deck s8.playStacks s8.playStackDirections
        s8.playStackStarts variant }

/-- The note actions that short-circuit the whole derivation pipeline. -/
def isNoteAction (a : GameAction) : Bool :=
  match a with
  | GameAction.noteList => true
  | GameAction.receiveNote => true
  | _ => false

/-- Translation of `gameStateReducerFunction` from `StatsState.ts`: the action-specific switch,
the `noteList`/`receiveNote` short-circuit, then the derivation pipeline. -/
def gameStateReducerFunction (s : GameState) (a : GameAction)
    (playing shadowing finished hypothetical : Bool) (m : GameMetadata)
    (ourNotes : Option (List CardNote)) : Except String GameState :=
  let variant := getVariant m.options.variantName
  match actionBranch s a variant playing shadowing finished hypothetical m with
  | Except.error e => Except.error e
  | Except.ok s1 =>
    if isNoteAction a then Except.ok s1
    else applyPipeline s s1 a variant playing shadowing m ourNotes

/-- Translation of `gameStateReducer`: the immer `produce` wrapper of `gameStateReducerFunction`.
`produce` runs the recipe on a copy-on-write draft, so the caller observes either
the completed new state or the propagated exception while the prior state value is
never mutated; over immutable Lean values this is the function itself. -/
def gameStateReducer (s : GameState) (a : GameAction)
    (playing shadowing finished hypothetical : Bool) (m : GameMetadata)
    (ourNotes : Option (List CardNote)) : Except String GameState :=
  gameStateReducerFunction s a playing shadowing finished hypothetical m ourNotes

/-! ## Concrete states used by witnesses and counterexamples -/

/-- A deck card for concrete runs. -/
def mkCard (o : Nat) (si r : Int) : CardState :=
  { order := o, suitIndex := some si, rank := some r, numPositiveClues := 0,
    inDoubleDiscard := false, isKnownTrash := false }

/-- Plausible initial statistics for a concrete two-player game. -/
def exampleStats : StatsState :=
  { maxScore := 25, maxScorePerStack := [5, 5, 5, 5, 5], pace := some 13,
    paceRisk := PaceRisk.LowRisk, finalRoundEffectivelyStarted := false,
    cardsGotten := 0, potentialCluesLost := 0, cluesStillUsable := none,
    cluesStillUsableNotRounded := none, cardsGottenByNotes := none,
    doubleDiscard := none, numSubsequentBlindPlays := 0,
    numSubsequentMisplays := 0, numAttemptedCardsPlayed := 0 }

/-- A mid-game two-player state over the default variant: ten dealt cards, hands
of five, all derived tables present. -/
def exampleState : GameState :=
  { turn := { currentPlayerIndex := some 0, turnNum := 3, segment := some 4 }
    log := []
    deck := [mkCard 0 0 1, mkCard 1 1 1, mkCard 2 2 1, mkCard 3 3 1, mkCard 4 4 1,
             mkCard 5 0 2, mkCard 6 1 2, mkCard 7 2 2, mkCard 8 3 2, mkCard 9 4 2]
    cardsRemainingInTheDeck := 40
    hands := [[0, 1, 2, 3, 4], [5, 6, 7, 8, 9]]
    clues := []
    playStacks := [[], [], [], [], []]
    playStackDirections := List.replicate 5 StackDirection.Undecided
    playStackStarts := List.replicate 5 none
    hole := []
    discardStacks := [[], [], [], [], []]
    clueTokens := 8
    strikes := []
    score := 0
    numAttemptedCardsPlayed := 0
    cardStatus := List.replicate 5 (List.replicate 6 CardStatus.NeedsToBePlayed)
    stats := exampleStats }

/-- Metadata of the concrete two-player default-variant game. -/
def exampleMetadata : GameMetadata :=
  { options := { variantName := "No Variant", timed := false, cardCycle := false }
    playerNames := ["Alice", "Bob"]
    characterAssignments := []
    numPlayers := 2 }

/-- The same state with the turn segment still unset (cards not yet fully dealt). -/
def preDealState : GameState :=
  { exampleState with turn := { currentPlayerIndex := some 0, turnNum := 0, segment := none } }

/-- Metadata of a concrete throw-it-in-a-hole game. -/
def holeMetadata : GameMetadata :=
  { exampleMetadata with
    options := { variantName := "Throw It in a Hole (5 Suits)", timed := false,
                 cardCycle := false } }

/-- Metadata of a concrete game with the card-cycling option enabled. -/
def cardCycleMetadata : GameMetadata :=
  { exampleMetadata with
    options := { variantName := "No Variant", timed := false, cardCycle := true } }

/-- A state whose first hand has a clued card in the chop-relevant position: the
card of order 1 is clued, so the chop of hand 0 is its first card (order 0). -/
def cluedExampleState : GameState :=
  { exampleState with
    deck := [mkCard 0 0 1,
             { mkCard 1 1 1 with numPositiveClues := 1 },
             mkCard 2 2 1, mkCard 3 3 1, mkCard 4 4 1,
             mkCard 5 0 2, mkCard 6 1 2, mkCard 7 2 2, mkCard 8 3 2, mkCard 9 4 2] }

/-- Extract the state of a successful reducer run (used to state closed witnesses). -/
def okStateOf (r : Except String GameState) (dflt : GameState) : GameState :=
  match r with
  | Except.ok s => s
  | Except.error _ => dflt

/-! ## Helper lemmas -/

theorem list_set_self {α : Type} (l : List α) (i : Nat) (x : α)
    (h : l.get? i = some x) : l.set i x = l := by
  induction l generalizing i with
  | nil => simp at h
  | cons y ys ih =>
    cases i with
    | zero =>
      simp only [List.get?] at h
      cases h
      rfl
    | succ j =>
      simp only [List.get?] at h
      simp only [List.set]
      rw [ih j h]

/-- The order field of a `play` or `discard` action. -/
def actionOrderD (a : GameAction) : Nat :=
  match a with
  | GameAction.play _ o _ _ => o
  | GameAction.discard _ o _ _ _ => o
  | _ => 0

theorem tih_eq (s : GameState) (a : GameAction) (v : Variant)
    (playing shadowing finished : Bool) :
    throwItInAHolePlayedOrMisplayed s a v playing shadowing finished =
      if holeRedirects a v playing shadowing finished then
        ({ s with hole := s.hole ++ [actionOrderD a],
                  numAttemptedCardsPlayed := s.numAttemptedCardsPlayed + 1 }, true)
      else (s, false) := by
  unfold throwItInAHolePlayedOrMisplayed holeRedirects actionOrderD
  cases a <;> cases hv : v.throwItInAHole <;> cases playing <;> cases shadowing <;>
      cases finished <;> simp [hv] <;> split <;> simp_all

theorem tih_frame (s : GameState) (a : GameAction) (v : Variant)
    (playing shadowing finished : Bool) :
    (throwItInAHolePlayedOrMisplayed s a v playing shadowing finished).1.score = s.score ∧
    (throwItInAHolePlayedOrMisplayed s a v playing shadowing finished).1.log = s.log ∧
    (throwItInAHolePlayedOrMisplayed s a v playing shadowing finished).1.clueTokens = s.clueTokens ∧
    (throwItInAHolePlayedOrMisplayed s a v playing shadowing finished).1.hands = s.hands ∧
    (throwItInAHolePlayedOrMisplayed s a v playing shadowing finished).1.turn = s.turn ∧
    (throwItInAHolePlayedOrMisplayed s a v playing shadowing finished).1.deck = s.deck ∧
    (throwItInAHolePlayedOrMisplayed s a v playing shadowing finished).1.playStacks = s.playStacks ∧
    (throwItInAHolePlayedOrMisplayed s a v playing shadowing finished).1.discardStacks = s.discardStacks := by
  rw [tih_eq]
  split <;> exact ⟨rfl, rfl, rfl, rfl, rfl, rfl, rfl, rfl⟩

theorem tih_fst_of_not_redirect (s : GameState) (a : GameAction) (v : Variant)
    (playing shadowing finished : Bool)
    (h : holeRedirects a v playing shadowing finished = false) :
    (throwItInAHolePlayedOrMisplayed s a v playing shadowing finished).1 = s := by
  rw [tih_eq, h]
  rfl

/-- Log entries as appended by the reducer (named for use in theorem statements). -/
def mkLogEntry (t : Nat) (txt : String) : LogEntry :=
  { turn := t, text := txt }

theorem applyPipeline_ok_frame {s0 s1 : GameState} {a : GameAction}
    {variant : Variant} {playing shadowing : Bool} {m : GameMetadata}
    {ourNotes : Option (List CardNote)} {s2 : GameState}
    (h : applyPipeline s0 s1 a variant playing shadowing m ourNotes = Except.ok s2) :
    s2.score = s1.score ∧ s2.log = s1.log ∧ s2.clueTokens = s1.clueTokens ∧
    s2.hands = s1.hands ∧ s2.hole = s1.hole ∧
    s2.numAttemptedCardsPlayed = s1.numAttemptedCardsPlayed ∧
    s2.playStacks = s1.playStacks ∧ s2.discardStacks = s1.discardStacks ∧
    s2.strikes = s1.strikes := by
  unfold applyPipeline at h
  simp only [] at h
  split at h
  · exact Except.noConfusion h
  · cases h
    refine ⟨rfl, rfl, rfl, rfl, rfl, rfl, ?_, rfl, rfl⟩
    show (resolveStackStarts (resolveDirections _ a variant) a variant).playStacks = _
    unfold resolveStackStarts resolveDirections
    rfl

theorem playStep_ok_frame {sA : GameState} {playerIndex order : Nat}
    {suitIndex rank : Option Int} {variant : Variant}
    {playing shadowing finished : Bool} {sB : GameState}
    (h : playStep sA playerIndex order suitIndex rank variant
      playing shadowing finished = Except.ok sB) :
    sB.score = sA.score ∧ sB.log = sA.log ∧ sB.turn = sA.turn ∧
    sB.deck = sA.deck ∧ sB.hands = sA.hands ∧ sB.discardStacks = sA.discardStacks := by
  have hf := tih_frame sA (GameAction.play playerIndex order suitIndex rank)
    variant playing shadowing finished
  unfold playStep at h
  rcases hpr : throwItInAHolePlayedOrMisplayed sA
    (GameAction.play playerIndex order suitIndex rank) variant playing shadowing
    finished with ⟨sP, b⟩
  rw [hpr] at h hf
  simp only [] at h
  cases b with
  | true =>
    simp only [if_pos rfl] at h
    cases h
    exact ⟨hf.1, hf.2.1, hf.2.2.2.2.1, hf.2.2.2.2.2.1, hf.2.2.2.1, hf.2.2.2.2.2.2.2⟩
  | false =>
    simp only [Bool.false_eq_true, if_neg, if_false] at h
    cases suitIndex with
    | none => exact Except.noConfusion h
    | some i =>
      simp only [] at h
      split at h
      · exact Except.noConfusion h
      · split at h
        · exact Except.noConfusion h
        · cases h
          exact ⟨hf.1, hf.2.1, hf.2.2.2.2.1, hf.2.2.2.2.2.1, hf.2.2.2.1,
            hf.2.2.2.2.2.2.2⟩

theorem playFinish_ok {sB : GameState} {playerIndex order : Nat}
    {suitIndex rank : Option Int} {slot : Option Nat}
    {playing shadowing hypothetical : Bool} {m : GameMetadata} {s1 : GameState}
    (h : playFinish sB playerIndex order suitIndex rank slot
      playing shadowing hypothetical m = Except.ok s1) :
    s1.score = sB.score + 1 ∧
    (∃ c, sB.deck.get? order = some c ∧
      s1.log = sB.log ++ [mkLogEntry (sB.turn.turnNum + 1)
        (textPlay playerIndex suitIndex rank slot (isClued c)
          playing shadowing hypothetical m)]) ∧
    s1.clueTokens = sB.clueTokens ∧ s1.hands = sB.hands ∧ s1.hole = sB.hole ∧
    s1.numAttemptedCardsPlayed = sB.numAttemptedCardsPlayed ∧
    s1.playStacks = sB.playStacks ∧ s1.discardStacks = sB.discardStacks ∧
    s1.turn = sB.turn := by
  unfold playFinish at h
  simp only [] at h
  split at h
  · exact Except.noConfusion h
  · rename_i c hc
    cases h
    exact ⟨rfl, ⟨c, hc, rfl⟩, rfl, rfl, rfl, rfl, rfl, rfl, rfl⟩

theorem discardStep_ok_frame {sA : GameState} {playerIndex order : Nat}
    {suitIndex rank : Option Int} {failed : Bool} {variant : Variant}
    {playing shadowing finished : Bool} {sB : GameState}
    (h : discardStep sA playerIndex order suitIndex rank failed variant
      playing shadowing finished = Except.ok sB) :
    sB.score = sA.score ∧ sB.log = sA.log ∧ sB.turn = sA.turn ∧
    sB.deck = sA.deck ∧ sB.hands = sA.hands ∧ sB.playStacks = sA.playStacks := by
  have hf := tih_frame sA (GameAction.discard playerIndex order suitIndex rank failed)
    variant playing shadowing finished
  unfold discardStep at h
  rcases hpr : throwItInAHolePlayedOrMisplayed sA
    (GameAction.discard playerIndex order suitIndex rank failed) variant playing
    shadowing finished with ⟨sP, b⟩
  rw [hpr] at h hf
  simp only [] at h
  cases b with
  | true =>
    simp only [if_pos rfl] at h
    cases h
    exact ⟨hf.1, hf.2.1, hf.2.2.2.2.1, hf.2.2.2.2.2.1, hf.2.2.2.1, hf.2.2.2.2.2.2.1⟩
  | false =>
    simp only [Bool.false_eq_true, if_neg, if_false] at h
    cases suitIndex with
    | none => exact Except.noConfusion h
    | some i =>
      simp only [] at h
      split at h
      · exact Except.noConfusion h
      · split at h
        · exact Except.noConfusion h
        · cases h
          exact ⟨hf.1, hf.2.1, hf.2.2.2.2.1, hf.2.2.2.2.2.1, hf.2.2.2.1,
            hf.2.2.2.2.2.2.1⟩

theorem discardFinish_ok {sB : GameState} {playerIndex order : Nat}
    {suitIndex rank : Option Int} {failed : Bool} {slot : Option Nat}
    {playing shadowing hypothetical : Bool} {m : GameMetadata} {s1 : GameState}
    (h : discardFinish sB playerIndex order suitIndex rank failed slot
      playing shadowing hypothetical m = Except.ok s1) :
    (∃ c, sB.deck.get? order = some c ∧
      s1.log = sB.log ++ [mkLogEntry (sB.turn.turnNum + 1)
        (textDiscard playerIndex suitIndex rank failed slot (isClued c)
          playing shadowing hypothetical m)]) ∧
    s1.score = sB.score ∧ s1.clueTokens = sB.clueTokens ∧ s1.hands = sB.hands ∧
    s1.hole = sB.hole ∧ s1.numAttemptedCardsPlayed = sB.numAttemptedCardsPlayed ∧
    s1.playStacks = sB.playStacks ∧ s1.discardStacks = sB.discardStacks ∧
    s1.turn = sB.turn := by
  unfold discardFinish at h
  simp only [] at h
  split at h
  · exact Except.noConfusion h
  · rename_i c hc
    cases h
    exact ⟨⟨c, hc, rfl⟩, rfl, rfl, rfl, rfl, rfl, rfl, rfl, rfl⟩

theorem gameStateReducer_ok_elim {s : GameState} {a : GameAction}
    {playing shadowing finished hypothetical : Bool} {m : GameMetadata}
    {ourNotes : Option (List CardNote)} {s2 : GameState}
    (h : gameStateReducer s a playing shadowing finished hypothetical m ourNotes =
      Except.ok s2)
    (hna : isNoteAction a = false) :
    ∃ s1, actionBranch s a (getVariant m.options.variantName) playing shadowing
        finished hypothetical m = Except.ok s1 ∧
      applyPipeline s s1 a (getVariant m.options.variantName) playing shadowing m
        ourNotes = Except.ok s2 := by
  unfold gameStateReducer gameStateReducerFunction at h
  simp only [] at h
  cases hE : actionBranch s a (getVariant m.options.variantName) playing shadowing
      finished hypothetical m with
  | error e =>
    rw [hE] at h
    exact Except.noConfusion h
  | ok s1 =>
    rw [hE, hna] at h
    simp only [Bool.false_eq_true, if_false] at h
    exact ⟨s1, rfl, h⟩

theorem playBranch_ok_score {s : GameState} {playerIndex order : Nat}
    {suitIndex rank : Option Int} {variant : Variant}
    {playing shadowing finished hypothetical : Bool} {m : GameMetadata}
    {s1 : GameState}
    (h : playBranch s playerIndex order suitIndex rank variant playing shadowing
      finished hypothetical m = Except.ok s1) :
    s1.score = s.score + 1 := by
  unfold playBranch at h
  split at h
  · exact Except.noConfusion h
  · simp only [] at h
    split at h
    · exact Except.noConfusion h
    · rename_i sB hstep
      have h1 := playStep_ok_frame hstep
      have h2 := playFinish_ok h
      rw [h2.1, h1.1]

/-- How JavaScript prints a suit index in the invalid-input error message. -/
def suitIndexText (si : Option Int) : String :=
  match si with
  | none => "undefined"
  | some n => toString n

theorem gameStateReducer_error_of_branch {s : GameState} {a : GameAction}
    {playing shadowing finished hypothetical : Bool} {m : GameMetadata}
    {ourNotes : Option (List CardNote)} {e : String}
    (hb : actionBranch s a (getVariant m.options.variantName) playing shadowing
      finished hypothetical m = Except.error e) :
    gameStateReducer s a playing shadowing finished hypothetical m ourNotes =
      Except.error e := by
  unfold gameStateReducer gameStateReducerFunction
  simp only []
  rw [hb]

theorem playStep_invalid {sA : GameState} {playerIndex order : Nat}
    {suitIndex rank : Option Int} {variant : Variant}
    {playing shadowing finished : Bool}
    (hred : holeRedirects (GameAction.play playerIndex order suitIndex rank)
      variant playing shadowing finished = false)
    (hsi : suitIndex = none ∨ ∃ n, suitIndex = some n ∧ n < 0) :
    playStep sA playerIndex order suitIndex rank variant playing shadowing finished =
      Except.error ("The suit index for the played card was: " ++
        suitIndexText suitIndex) := by
  unfold playStep
  rw [tih_eq, hred]
  rcases hsi with rfl | ⟨n, rfl, hn⟩
  · rfl
  · simp [suitIndexText, hn]

theorem discardStep_invalid {sA : GameState} {playerIndex order : Nat}
    {suitIndex rank : Option Int} {failed : Bool} {variant : Variant}
    {playing shadowing finished : Bool}
    (hred : holeRedirects (GameAction.discard playerIndex order suitIndex rank failed)
      variant playing shadowing finished = false)
    (hsi : suitIndex = none ∨ ∃ n, suitIndex = some n ∧ n < 0) :
    discardStep sA playerIndex order suitIndex rank failed variant playing shadowing
        finished =
      Except.error ("The suit index for the discarded card was: " ++
        suitIndexText suitIndex) := by
  unfold discardStep
  rw [tih_eq, hred]
  rcases hsi with rfl | ⟨n, rfl, hn⟩
  · rfl
  · simp [suitIndexText, hn]

theorem playStep_ok_not_redirect {sA : GameState} {playerIndex order : Nat}
    {i : Int} {rank : Option Int} {variant : Variant}
    {playing shadowing finished : Bool} {stack : List Nat}
    (hred : holeRedirects (GameAction.play playerIndex order (some i) rank)
      variant playing shadowing finished = false)
    (hi : 0 ≤ i)
    (hstack : sA.playStacks.get? i.toNat = some stack) :
    playStep sA playerIndex order (some i) rank variant playing shadowing finished =
      Except.ok { sA with
        playStacks := sA.playStacks.set i.toNat (stack ++ [order]),
        clueTokens := clueTokensGain (GameAction.play playerIndex order (some i) rank)
          sA.clueTokens variant ((stack ++ [order]).length == 5) } := by
  have hneg : ¬ i < 0 := by omega
  have hstack2 : sA.playStacks[i.toNat]? = some stack := by
    rw [← List.get?_eq_getElem?]
    exact hstack
  unfold playStep
  rw [tih_eq, hred]
  simp [hneg, hstack2]

theorem playStep_ok_redirect {sA : GameState} {playerIndex order : Nat}
    {suitIndex rank : Option Int} {variant : Variant}
    {playing shadowing finished : Bool}
    (hr : holeRedirects (GameAction.play playerIndex order suitIndex rank) variant
      playing shadowing finished = true) :
    playStep sA playerIndex order suitIndex rank variant playing shadowing finished =
      Except.ok { sA with
        hole := sA.hole ++ [order],
        numAttemptedCardsPlayed := sA.numAttemptedCardsPlayed + 1 } := by
  unfold playStep
  rw [tih_eq, hr]
  rfl

theorem discardStep_ok_redirect {sA : GameState} {playerIndex order : Nat}
    {suitIndex rank : Option Int} {failed : Bool} {variant : Variant}
    {playing shadowing finished : Bool}
    (hr : holeRedirects (GameAction.discard playerIndex order suitIndex rank failed)
      variant playing shadowing finished = true) :
    discardStep sA playerIndex order suitIndex rank failed variant playing shadowing
        finished =
      Except.ok { sA with
        hole := sA.hole ++ [order],
        numAttemptedCardsPlayed := sA.numAttemptedCardsPlayed + 1 } := by
  unfold discardStep
  rw [tih_eq, hr]
  rfl

theorem discardStep_ok_not_redirect {sA : GameState} {playerIndex order : Nat}
    {i : Int} {rank : Option Int} {failed : Bool} {variant : Variant}
    {playing shadowing finished : Bool} {dstack : List Nat}
    (hred : holeRedirects (GameAction.discard playerIndex order (some i) rank failed)
      variant playing shadowing finished = false)
    (hi : 0 ≤ i)
    (hstack : sA.discardStacks.get? i.toNat = some dstack) :
    discardStep sA playerIndex order (some i) rank failed variant playing shadowing
        finished =
      Except.ok { sA with
        discardStacks := sA.discardStacks.set i.toNat (dstack ++ [order]),
        clueTokens := clueTokensGain
          (GameAction.discard playerIndex order (some i) rank failed)
          sA.clueTokens variant false } := by
  have hneg : ¬ i < 0 := by omega
  have hstack2 : sA.discardStacks[i.toNat]? = some dstack := by
    rw [← List.get?_eq_getElem?]
    exact hstack
  unfold discardStep
  rw [tih_eq, hred]
  simp [hneg, hstack2]

theorem statusTableCore_ok_of_row {grid : List (List CardStatus)}
    {deck : List CardState} {pstacks : List (List Nat)}
    {dirs : List StackDirection} {starts : List (Option Int)} {v : Variant}
    {i : Int} (r : Option Int)
    (hi : 0 ≤ i) (hrow : i.toNat < grid.length) :
    ∃ t, statusTableCore grid deck pstacks dirs starts (some i) r v =
      Except.ok t := by
  obtain ⟨row, hr⟩ : ∃ row, grid.get? i.toNat = some row := by
    cases hg : grid.get? i.toNat with
    | none => exact absurd (List.get?_eq_none.1 hg) (by omega)
    | some row => exact ⟨row, rfl⟩
  unfold statusTableCore
  split
  · simp only [hi, if_true, hr]
    exact ⟨_, rfl⟩
  · exact ⟨grid, rfl⟩

theorem statusTable_ok_of_row {grid : List (List CardStatus)}
    {deck : List CardState} {pstacks : List (List Nat)}
    {dirs : List StackDirection} {starts : List (Option Int)} {v : Variant}
    {pI o : Nat} {i : Int} {r : Option Int} {failed : Bool} (a : GameAction)
    (ha : a = GameAction.play pI o (some i) r ∨
      a = GameAction.discard pI o (some i) r failed)
    (hi : 0 ≤ i) (hrow : i.toNat < grid.length) :
    ∃ t, statusTable grid deck pstacks dirs starts a v = Except.ok t := by
  rcases ha with rfl | rfl
  · exact statusTableCore_ok_of_row r hi hrow
  · exact statusTableCore_ok_of_row r hi hrow

theorem statusTableCore_skip {grid : List (List CardStatus)}
    {deck : List CardState} {pstacks : List (List Nat)}
    {dirs : List StackDirection} {starts : List (Option Int)} {v : Variant}
    (si r : Option Int)
    (hskip : si = some (-1) ∨ r = some (-1)) :
    statusTableCore grid deck pstacks dirs starts si r v = Except.ok grid := by
  unfold statusTableCore
  rcases hskip with rfl | rfl <;> simp

theorem statusTable_skip {grid : List (List CardStatus)} {deck : List CardState}
    {pstacks : List (List Nat)} {dirs : List StackDirection}
    {starts : List (Option Int)} {v : Variant}
    {pI o : Nat} {si r : Option Int} {failed : Bool} (a : GameAction)
    (ha : a = GameAction.play pI o si r ∨ a = GameAction.discard pI o si r failed)
    (hskip : si = some (-1) ∨ r = some (-1)) :
    statusTable grid deck pstacks dirs starts a v = Except.ok grid := by
  rcases ha with rfl | rfl
  · exact statusTableCore_skip si r hskip
  · exact statusTableCore_skip si r hskip

theorem applyPipeline_ok_exists {s0 s1 : GameState} {a : GameAction} {v : Variant}
    {p sh : Bool} {m : GameMetadata} {n : Option (List CardNote)}
    (hst : ∀ e, statusTable
      (resolveStackStarts (resolveDirections
        { s1 with deck := cardsReducer s0.deck a s1 m } a v) a v).cardStatus
      (resolveStackStarts (resolveDirections
        { s1 with deck := cardsReducer s0.deck a s1 m } a v) a v).deck
      (resolveStackStarts (resolveDirections
        { s1 with deck := cardsReducer s0.deck a s1 m } a v) a v).playStacks
      (resolveStackStarts (resolveDirections
        { s1 with deck := cardsReducer s0.deck a s1 m } a v) a v).playStackDirections
      (resolveStackStarts (resolveDirections
        { s1 with deck := cardsReducer s0.deck a s1 m } a v) a v).playStackStarts
      a v ≠ Except.error e) :
    ∃ s2, applyPipeline s0 s1 a v p sh m n = Except.ok s2 := by
  unfold applyPipeline
  simp only []
  split
  · rename_i e hE
    exact absurd hE (hst e)
  · exact ⟨_, rfl⟩

theorem applyPipeline_ok_exists_of_row {s0 s1 : GameState} {v : Variant}
    {p sh : Bool} {m : GameMetadata} {n : Option (List CardNote)}
    {pI o : Nat} {i : Int} {r : Option Int} {failed : Bool} (a : GameAction)
    (ha : a = GameAction.play pI o (some i) r ∨
      a = GameAction.discard pI o (some i) r failed)
    (hi : 0 ≤ i) (hrow : i.toNat < s1.cardStatus.length) :
    ∃ s2, applyPipeline s0 s1 a v p sh m n = Except.ok s2 := by
  apply applyPipeline_ok_exists
  intro e hE
  obtain ⟨t, ht⟩ := @statusTable_ok_of_row
    (resolveStackStarts (resolveDirections
      { s1 with deck := cardsReducer s0.deck a s1 m } a v) a v).cardStatus
    (resolveStackStarts (resolveDirections
      { s1 with deck := cardsReducer s0.deck a s1 m } a v) a v).deck
    (resolveStackStarts (resolveDirections
      { s1 with deck := cardsReducer s0.deck a s1 m } a v) a v).playStacks
    (resolveStackStarts (resolveDirections
      { s1 with deck := cardsReducer s0.deck a s1 m } a v) a v).playStackDirections
    (resolveStackStarts (resolveDirections
      { s1 with deck := cardsReducer s0.deck a s1 m } a v) a v).playStackStarts
    v pI o i r failed a ha hi hrow
  rw [ht] at hE
  exact Except.noConfusion hE

theorem applyPipeline_ok_exists_of_skip {s0 s1 : GameState} {v : Variant}
    {p sh : Bool} {m : GameMetadata} {n : Option (List CardNote)}
    {pI o : Nat} {si r : Option Int} {failed : Bool} (a : GameAction)
    (ha : a = GameAction.play pI o si r ∨ a = GameAction.discard pI o si r failed)
    (hskip : si = some (-1) ∨ r = some (-1)) :
    ∃ s2, applyPipeline s0 s1 a v p sh m n = Except.ok s2 := by
  apply applyPipeline_ok_exists
  intro e hE
  have ht := @statusTable_skip
    (resolveStackStarts (resolveDirections
      { s1 with deck := cardsReducer s0.deck a s1 m } a v) a v).cardStatus
    (resolveStackStarts (resolveDirections
      { s1 with deck := cardsReducer s0.deck a s1 m } a v) a v).deck
    (resolveStackStarts (resolveDirections
      { s1 with deck := cardsReducer s0.deck a s1 m } a v) a v).playStacks
    (resolveStackStarts (resolveDirections
      { s1 with deck := cardsReducer s0.deck a s1 m } a v) a v).playStackDirections
    (resolveStackStarts (resolveDirections
      { s1 with deck := cardsReducer s0.deck a s1 m } a v) a v).playStackStarts
    v pI o si r failed a ha hskip
  rw [ht] at hE
  exact Except.noConfusion hE

theorem applyPipeline_ok_exists_other {s0 s1 : GameState} {v : Variant}
    {p sh : Bool} {m : GameMetadata} {n : Option (List CardNote)} (a : GameAction)
    (ha : (match a with
      | GameAction.play _ _ _ _ => false
      | GameAction.discard _ _ _ _ _ => false
      | _ => true) = true) :
    ∃ s2, applyPipeline s0 s1 a v p sh m n = Except.ok s2 := by
  apply applyPipeline_ok_exists
  intro e hE
  cases a <;> simp at ha <;> exact Except.noConfusion hE

theorem discardFinish_run {sB : GameState} {playerIndex order : Nat}
    {suitIndex rank : Option Int} {failed : Bool} {slot : Option Nat}
    {playing shadowing hypothetical : Bool} {m : GameMetadata} {c : CardState}
    (hdeck : sB.deck.get? order = some c) :
    discardFinish sB playerIndex order suitIndex rank failed slot playing shadowing
        hypothetical m =
      Except.ok { sB with log := sB.log ++ [mkLogEntry (sB.turn.turnNum + 1)
        (textDiscard playerIndex suitIndex rank failed slot (isClued c)
          playing shadowing hypothetical m)] } := by
  unfold discardFinish
  rw [hdeck]
  rfl

theorem playFinish_run {sB : GameState} {playerIndex order : Nat}
    {suitIndex rank : Option Int} {slot : Option Nat}
    {playing shadowing hypothetical : Bool} {m : GameMetadata} {c : CardState}
    (hdeck : sB.deck.get? order = some c) :
    playFinish sB playerIndex order suitIndex rank slot playing shadowing
        hypothetical m =
      Except.ok { sB with
        score := sB.score + 1,
        log := sB.log ++ [mkLogEntry (sB.turn.turnNum + 1)
          (textPlay playerIndex suitIndex rank slot (isClued c)
            playing shadowing hypothetical m)] } := by
  unfold playFinish
  simp only []
  rw [show ({ sB with score := sB.score + 1 } : GameState).deck.get? order = some c
    from hdeck]
  rfl

theorem discardBranch_ok_shape {s : GameState} {playerIndex order : Nat}
    {i : Int} {rank : Option Int} {failed : Bool} {v : Variant}
    {playing shadowing finished hypothetical : Bool} {m : GameMetadata}
    {hand : List Nat} {c : CardState} {dstack : List Nat}
    (hh : s.hands.get? playerIndex = some hand)
    (hdeck : s.deck.get? order = some c)
    (hi : 0 ≤ i)
    (hstack : s.discardStacks.get? i.toNat = some dstack) :
    ∃ sB, discardBranch s playerIndex order (some i) rank failed v playing
        shadowing finished hypothetical m = Except.ok sB ∧
      sB.log = s.log ++ [mkLogEntry (s.turn.turnNum + 1)
        (textDiscard playerIndex (some i) rank failed
          ((hand.findIdx? (fun x => x == order)).map (fun idx => hand.length - idx))
          (isClued c) playing shadowing hypothetical m)] ∧
      sB.cardStatus = s.cardStatus ∧ sB.turn = s.turn ∧
      (hand.findIdx? (fun x => x == order) = none → sB.hands = s.hands) := by
  cases hf : hand.findIdx? (fun x => x == order) with
  | none =>
    by_cases hr : holeRedirects
      (GameAction.discard playerIndex order (some i) rank failed) v playing
      shadowing finished = true
    · have hbr : discardBranch s playerIndex order (some i) rank failed v playing
          shadowing finished hypothetical m =
          Except.ok { s with
            hands := s.hands.set playerIndex hand,
            hole := s.hole ++ [order],
            numAttemptedCardsPlayed := s.numAttemptedCardsPlayed + 1,
            log := s.log ++ [mkLogEntry (s.turn.turnNum + 1)
              (textDiscard playerIndex (some i) rank failed none (isClued c)
                playing shadowing hypothetical m)] } := by
        unfold discardBranch
        rw [hh]
        simp only [removeFromHand, hf]
        rw [discardStep_ok_redirect hr]
        show discardFinish _ playerIndex order (some i) rank failed none playing
          shadowing hypothetical m = _
        exact discardFinish_run hdeck
      exact ⟨_, hbr, rfl, rfl, rfl, fun _ => list_set_self _ _ _ hh⟩
    · rw [Bool.not_eq_true] at hr
      have hbr : discardBranch s playerIndex order (some i) rank failed v playing
          shadowing finished hypothetical m =
          Except.ok { s with
            hands := s.hands.set playerIndex hand,
            discardStacks := s.discardStacks.set i.toNat (dstack ++ [order]),
            clueTokens := clueTokensGain
              (GameAction.discard playerIndex order (some i) rank failed)
              s.clueTokens v false,
            log := s.log ++ [mkLogEntry (s.turn.turnNum + 1)
              (textDiscard playerIndex (some i) rank failed none (isClued c)
                playing shadowing hypothetical m)] } := by
        unfold discardBranch
        rw [hh]
        simp only [removeFromHand, hf]
        rw [@discardStep_ok_not_redirect
          { s with hands := s.hands.set playerIndex hand } playerIndex order i rank
          failed v playing shadowing finished dstack hr hi hstack]
        show discardFinish _ playerIndex order (some i) rank failed none playing
          shadowing hypothetical m = _
        exact discardFinish_run hdeck
      exact ⟨_, hbr, rfl, rfl, rfl, fun _ => list_set_self _ _ _ hh⟩
  | some idx =>
    by_cases hr : holeRedirects
      (GameAction.discard playerIndex order (some i) rank failed) v playing
      shadowing finished = true
    · have hbr : discardBranch s playerIndex order (some i) rank failed v playing
          shadowing finished hypothetical m =
          Except.ok { s with
            hands := s.hands.set playerIndex (hand.eraseIdx idx),
            hole := s.hole ++ [order],
            numAttemptedCardsPlayed := s.numAttemptedCardsPlayed + 1,
            log := s.log ++ [mkLogEntry (s.turn.turnNum + 1)
              (textDiscard playerIndex (some i) rank failed
                (some (hand.length - idx)) (isClued c)
                playing shadowing hypothetical m)] } := by
        unfold discardBranch
        rw [hh]
        simp only [removeFromHand, hf]
        rw [discardStep_ok_redirect hr]
        show discardFinish _ playerIndex order (some i) rank failed
          (some (hand.length - idx)) playing shadowing hypothetical m = _
        exact discardFinish_run hdeck
      refine ⟨_, hbr, rfl, rfl, rfl, fun hnone => ?_⟩
      exact Option.noConfusion hnone
    · rw [Bool.not_eq_true] at hr
      have hbr : discardBranch s playerIndex order (some i) rank failed v playing
          shadowing finished hypothetical m =
          Except.ok { s with
            hands := s.hands.set playerIndex (hand.eraseIdx idx),
            discardStacks := s.discardStacks.set i.toNat (dstack ++ [order]),
            clueTokens := clueTokensGain
              (GameAction.discard playerIndex order (some i) rank failed)
              s.clueTokens v false,
            log := s.log ++ [mkLogEntry (s.turn.turnNum + 1)
              (textDiscard playerIndex (some i) rank failed
                (some (hand.length - idx)) (isClued c)
                playing shadowing hypothetical m)] } := by
        unfold discardBranch
        rw [hh]
        simp only [removeFromHand, hf]
        rw [@discardStep_ok_not_redirect
          { s with hands := s.hands.set playerIndex (hand.eraseIdx idx) }
          playerIndex order i rank failed v playing shadowing finished dstack
          hr hi hstack]
        show discardFinish _ playerIndex order (some i) rank failed
          (some (hand.length - idx)) playing shadowing hypothetical m = _
        exact discardFinish_run hdeck
      refine ⟨_, hbr, rfl, rfl, rfl, fun hnone => ?_⟩
      exact Option.noConfusion hnone

/-! ## Claims -/

/-- C7: for every prior state, a `noteList` or `receiveNote` action returns a state
equal to the prior state in every field: the action branch performs no mutation and
the reducer short-circuits before any derivation runs. -/
theorem note_actions_identity (s : GameState)
    (playing shadowing finished hypothetical : Bool) (m : GameMetadata)
    (ourNotes : Option (List CardNote)) :
    gameStateReducer s GameAction.noteList playing shadowing finished hypothetical
        m ourNotes = Except.ok s ∧
    gameStateReducer s GameAction.receiveNote playing shadowing finished hypothetical
        m ourNotes = Except.ok s :=
  ⟨rfl, rfl⟩

/-- C3: for every state whose turn segment is unset, applying a `clue` action fails
with the state-consistency sequencing error, surfaced to the caller as a hard
failure (an `Except.error`), never silently recovered. -/
theorem clue_before_deal_fails (s : GameState) (cl : MsgClue) (giver : Nat)
    (list : List Nat) (target : Nat) (ign : Bool)
    (playing shadowing finished hypothetical : Bool) (m : GameMetadata)
    (ourNotes : Option (List CardNote))
    (h : s.turn.segment = none) :
    gameStateReducer s (GameAction.clue cl giver list target ign) playing shadowing
        finished hypothetical m ourNotes =
      Except.error "A \"clue\" action happened before all of the initial cards were dealt." := by
  unfold gameStateReducer gameStateReducerFunction actionBranch clueBranch
  simp [h]

/-- Witness for C3 at a concrete pre-deal state. -/
theorem clue_before_deal_fails_witness :
    gameStateReducer preDealState (GameAction.clue ⟨ClueType.Rank, 1⟩ 0 [5] 1 false)
        true false false false exampleMetadata none =
      Except.error "A \"clue\" action happened before all of the initial cards were dealt." :=
  clue_before_deal_fails preDealState ⟨ClueType.Rank, 1⟩ 0 [5] 1 false
    true false false false exampleMetadata none rfl

/-- C2: whenever applying an action fails, the caller observes no partial state
mutation: no new state is produced at all (the `produce` wrapper propagates the
exception and the prior immutable snapshot is left untouched), so in particular the
clue-token debit performed before the clue sequencing check is not observable. -/
theorem apply_failure_atomic (s : GameState) (a : GameAction)
    (playing shadowing finished hypothetical : Bool) (m : GameMetadata)
    (ourNotes : Option (List CardNote)) (e : String)
    (h : gameStateReducer s a playing shadowing finished hypothetical m ourNotes =
      Except.error e) :
    ∀ s2, gameStateReducer s a playing shadowing finished hypothetical m ourNotes ≠
      Except.ok s2 := by
  intro s2 hok
  rw [h] at hok
  exact Except.noConfusion hok

/-- Witness for C2: the failing pre-deal clue produces no state, in particular not
the state carrying the clue-token debit made before the sequencing check. -/
theorem apply_failure_atomic_witness :
    gameStateReducer preDealState (GameAction.clue ⟨ClueType.Color, 0⟩ 0 [6] 1 false)
        true false false false exampleMetadata none ≠
      Except.ok { preDealState with clueTokens := preDealState.clueTokens - 1 } :=
  apply_failure_atomic preDealState (GameAction.clue ⟨ClueType.Color, 0⟩ 0 [6] 1 false)
    true false false false exampleMetadata none _ rfl
    { preDealState with clueTokens := preDealState.clueTokens - 1 }

/-- C1: for every `play` action applied to any prior state from which the reducer
produces a new state, the score of the resulting state equals the prior score plus
exactly one, whether the card was redirected to the hole or pushed onto a normal
play stack. -/
theorem play_increments_score (s : GameState) (playerIndex order : Nat)
    (suitIndex rank : Option Int) (playing shadowing finished hypothetical : Bool)
    (m : GameMetadata) (ourNotes : Option (List CardNote)) (s2 : GameState)
    (h : gameStateReducer s (GameAction.play playerIndex order suitIndex rank)
      playing shadowing finished hypothetical m ourNotes = Except.ok s2) :
    s2.score = s.score + 1 := by
  rcases gameStateReducer_ok_elim h rfl with ⟨s1, hb, hp⟩
  simp only [actionBranch] at hb
  have hscore := playBranch_ok_score hb
  have hframe := applyPipeline_ok_frame hp
  rw [hframe.1, hscore]

/-- Witness for C1 at a concrete play action. -/
theorem play_increments_score_witness :
    (okStateOf (gameStateReducer exampleState (GameAction.play 0 2 (some 2) (some 1))
        true false false false exampleMetadata none) exampleState).score =
      exampleState.score + 1 :=
  play_increments_score exampleState 0 2 (some 2) (some 1) true false false false
    exampleMetadata none _ rfl

/-- C5: for every `play` or `discard` action whose suit index is non-numeric
(`none`) or negative at the point the stacks are touched — that is, when the card
is not redirected to the hole — the reducer fails with the invalid-input error. -/
theorem invalid_suit_index_errors (s : GameState) (playerIndex order : Nat)
    (suitIndex rank : Option Int) (failed : Bool)
    (playing shadowing finished hypothetical : Bool) (m : GameMetadata)
    (ourNotes : Option (List CardNote)) (a : GameAction)
    (ha : a = GameAction.play playerIndex order suitIndex rank ∨
      a = GameAction.discard playerIndex order suitIndex rank failed)
    (hsi : suitIndex = none ∨ ∃ n, suitIndex = some n ∧ n < 0)
    (hhand : playerIndex < s.hands.length)
    (hred : holeRedirects a (getVariant m.options.variantName) playing shadowing
      finished = false) :
    gameStateReducer s a playing shadowing finished hypothetical m ourNotes =
      Except.error
        ((match a with
          | GameAction.discard _ _ _ _ _ => "The suit index for the discarded card was: "
          | _ => "The suit index for the played card was: ") ++
          suitIndexText suitIndex) := by
  obtain ⟨hand, hh⟩ : ∃ hand, s.hands.get? playerIndex = some hand := by
    cases hh : s.hands.get? playerIndex with
    | none => exact absurd (List.get?_eq_none.1 hh) (by omega)
    | some hand => exact ⟨hand, rfl⟩
  rcases ha with rfl | rfl
  · apply gameStateReducer_error_of_branch
    simp only [actionBranch]
    unfold playBranch
    simp only [hh]
    rw [playStep_invalid hred hsi]
  · apply gameStateReducer_error_of_branch
    simp only [actionBranch]
    unfold discardBranch
    simp only [hh]
    rw [discardStep_invalid hred hsi]

/-- Witness for C5: a discard with suit index `-1` in the default variant. -/
theorem invalid_suit_index_errors_witness :
    gameStateReducer exampleState (GameAction.discard 0 0 (some (-1)) (some 1) false)
        true false false false exampleMetadata none =
      Except.error
        ((match GameAction.discard 0 0 (some (-1)) (some 1) false with
          | GameAction.discard _ _ _ _ _ => "The suit index for the discarded card was: "
          | _ => "The suit index for the played card was: ") ++
          suitIndexText (some (-1))) :=
  invalid_suit_index_errors exampleState 0 0 (some (-1)) (some 1) false
    true false false false exampleMetadata none
    (GameAction.discard 0 0 (some (-1)) (some 1) false)
    (Or.inr rfl) (Or.inr ⟨-1, rfl, by decide⟩) (by decide) rfl

/-- C4: for every `play` with a valid suit index that is not redirected to the
hole, the clue-token regrant is exactly the `gain` call with the stack-completed
flag, and the bonus token is granted exactly when the play stack reaches its
maximum height of five (rank 5 in the default rules), subject to the token cap. -/
theorem play_stack_completed_bonus (s : GameState) (playerIndex order : Nat)
    (i : Int) (rank : Option Int) (playing shadowing finished hypothetical : Bool)
    (m : GameMetadata) (ourNotes : Option (List CardNote)) (s2 : GameState)
    (stack : List Nat)
    (hred : holeRedirects (GameAction.play playerIndex order (some i) rank)
      (getVariant m.options.variantName) playing shadowing finished = false)
    (hi : 0 ≤ i)
    (hstack : s.playStacks.get? i.toNat = some stack)
    (h : gameStateReducer s (GameAction.play playerIndex order (some i) rank)
      playing shadowing finished hypothetical m ourNotes = Except.ok s2) :
    s2.clueTokens = clueTokensGain (GameAction.play playerIndex order (some i) rank)
        s.clueTokens (getVariant m.options.variantName)
        ((stack ++ [order]).length == 5) ∧
    (s2.clueTokens = s.clueTokens + 1 ↔
      ((stack ++ [order]).length = 5 ∧
        s.clueTokens < getAdjusted MAX_CLUE_NUM (getVariant m.options.variantName))) := by
  rcases gameStateReducer_ok_elim h rfl with ⟨s1, hb, hp⟩
  simp only [actionBranch] at hb
  unfold playBranch at hb
  obtain ⟨hand, hh⟩ : ∃ hand, s.hands.get? playerIndex = some hand := by
    cases hh : s.hands.get? playerIndex with
    | none =>
      rw [hh] at hb
      exact Except.noConfusion hb
    | some hand => exact ⟨hand, rfl⟩
  rw [hh] at hb
  simp only [] at hb
  rw [@playStep_ok_not_redirect
    { s with hands := s.hands.set playerIndex (removeFromHand hand order).2 }
    playerIndex order i rank (getVariant m.options.variantName) playing shadowing
    finished stack hred hi hstack] at hb
  have hfin := playFinish_ok hb
  have hframe := applyPipeline_ok_frame hp
  have htok : s2.clueTokens =
      clueTokensGain (GameAction.play playerIndex order (some i) rank) s.clueTokens
        (getVariant m.options.variantName) ((stack ++ [order]).length == 5) := by
    rw [hframe.2.2.1, hfin.2.2.1]
  refine ⟨htok, ?_⟩
  rw [htok]
  unfold clueTokensGain
  simp only [Bool.and_eq_true, beq_iff_eq, decide_eq_true_eq]
  split
  · rename_i hcond
    omega
  · rename_i hcond
    rw [not_and_or] at hcond
    omega

/-- A default-variant state whose first play stack holds four cards: the next play
on that suit completes the stack. -/
def nearCompleteState : GameState :=
  { exampleState with
    playStacks := [[10, 11, 12, 13], [], [], [], []]
    clueTokens := 4 }

/-- Witness for C4: completing the first stack at four clue tokens. -/
theorem play_stack_completed_bonus_witness :
    (okStateOf (gameStateReducer nearCompleteState
        (GameAction.play 0 0 (some 0) (some 5)) true false false false
        exampleMetadata none) nearCompleteState).clueTokens =
      clueTokensGain (GameAction.play 0 0 (some 0) (some 5))
        nearCompleteState.clueTokens (getVariant "No Variant")
        (([10, 11, 12, 13] ++ [0]).length == 5) ∧
    ((okStateOf (gameStateReducer nearCompleteState
        (GameAction.play 0 0 (some 0) (some 5)) true false false false
        exampleMetadata none) nearCompleteState).clueTokens =
      nearCompleteState.clueTokens + 1 ↔
      (([10, 11, 12, 13] ++ [0]).length = 5 ∧
        nearCompleteState.clueTokens < getAdjusted MAX_CLUE_NUM (getVariant "No Variant"))) :=
  play_stack_completed_bonus nearCompleteState 0 0 0 (some 5) true false false false
    exampleMetadata none _ [10, 11, 12, 13] rfl (by decide) rfl rfl

/-- C6: for every `discard` (here with a valid suit index, so that no invalid-input
failure interferes), the narration receives slot = hand length at removal time
minus the removal index when the card is found in the hand of the discarder; when
card is not present in that hand the action still succeeds, the hand is left
unchanged, and a log entry tagged with this turn is appended whose text was
rendered with slot = null. -/
theorem discard_slot_and_log (s : GameState) (playerIndex order : Nat) (i : Int)
    (rank : Option Int) (failed : Bool)
    (playing shadowing finished hypothetical : Bool) (m : GameMetadata)
    (ourNotes : Option (List CardNote)) (hand : List Nat) (c : CardState)
    (dstack : List Nat)
    (hh : s.hands.get? playerIndex = some hand)
    (hdeck : s.deck.get? order = some c)
    (hi : 0 ≤ i)
    (hstack : s.discardStacks.get? i.toNat = some dstack)
    (hrow : i.toNat < s.cardStatus.length) :
    ∃ s2, gameStateReducer s
        (GameAction.discard playerIndex order (some i) rank failed)
        playing shadowing finished hypothetical m ourNotes = Except.ok s2 ∧
      s2.log = s.log ++ [mkLogEntry (s.turn.turnNum + 1)
        (textDiscard playerIndex (some i) rank failed
          ((hand.findIdx? (fun x => x == order)).map (fun idx => hand.length - idx))
          (isClued c) playing shadowing hypothetical m)] ∧
      (hand.findIdx? (fun x => x == order) = none → s2.hands = s.hands) := by
  obtain ⟨sB, hbr, hlog, hcs, hturn, hhands⟩ :=
    @discardBranch_ok_shape s playerIndex order i rank failed
      (getVariant m.options.variantName) playing shadowing finished hypothetical m
      hand c dstack hh hdeck hi hstack
  obtain ⟨s2, hpipe⟩ :=
    @applyPipeline_ok_exists_of_row s sB (getVariant m.options.variantName)
      playing shadowing m ourNotes playerIndex order i rank failed
      (GameAction.discard playerIndex order (some i) rank failed) (Or.inr rfl) hi
      (by rw [hcs]; exact hrow)
  have hframe := applyPipeline_ok_frame hpipe
  refine ⟨s2, ?_, ?_, ?_⟩
  · unfold gameStateReducer gameStateReducerFunction
    simp only []
    rw [show actionBranch s
        (GameAction.discard playerIndex order (some i) rank failed)
        (getVariant m.options.variantName) playing shadowing finished hypothetical m =
      discardBranch s playerIndex order (some i) rank failed
        (getVariant m.options.variantName) playing shadowing finished hypothetical m
      from rfl]
    rw [hbr]
    show applyPipeline s sB
      (GameAction.discard playerIndex order (some i) rank failed)
      (getVariant m.options.variantName) playing shadowing m ourNotes = Except.ok s2
    exact hpipe
  · rw [hframe.2.1, hlog]
  · intro hnone
    rw [hframe.2.2.2.1, hhands hnone]

/-- Witness for C6 (Scenario 3): player 0 discards a card that is in the other
hand, so it is not found in their own hand; the reducer succeeds, the hand is
unchanged and the log entry is rendered with slot = null. -/
theorem discard_slot_and_log_witness :
    ∃ s2, gameStateReducer exampleState
        (GameAction.discard 0 7 (some 2) (some 2) false)
        true false false false exampleMetadata none = Except.ok s2 ∧
      s2.log = exampleState.log ++ [mkLogEntry (exampleState.turn.turnNum + 1)
        (textDiscard 0 (some 2) (some 2) false
          (([0, 1, 2, 3, 4].findIdx? (fun x => x == 7)).map
            (fun idx => [0, 1, 2, 3, 4].length - idx))
          (isClued (mkCard 7 2 2)) true false false exampleMetadata)] ∧
      ([0, 1, 2, 3, 4].findIdx? (fun x => x == 7) = none →
        s2.hands = exampleState.hands) :=
  discard_slot_and_log exampleState 0 7 2 (some 2) false true false false false
    exampleMetadata none [0, 1, 2, 3, 4] (mkCard 7 2 2) [] rfl rfl (by decide)
    rfl (by decide)

theorem clueBranch_ok_hands {s : GameState} {cl : MsgClue} {giver : Nat}
    {list : List Nat} {target : Nat} {ign : Bool} {variant : Variant}
    {hypothetical : Bool} {m : GameMetadata} {s1 : GameState}
    {giverHand : List Nat}
    (hg : s.hands.get? giver = some giverHand)
    (h : clueBranch s cl giver list target ign variant hypothetical m =
      Except.ok s1) :
    s1.hands = s.hands.set giver (cardCycle giverHand s.deck m) := by
  unfold clueBranch at h
  simp only [] at h
  split at h
  · exact Except.noConfusion h
  · split at h
    · exact Except.noConfusion h
    · split at h
      · exact Except.noConfusion h
      · rw [hg] at h
        simp only [] at h
        cases h
        rfl

/-- C8: for every `clue` action with the card-cycling option enabled that produces
a state, the chop card of the giver — the rightmost least-protected card, per the
chop-index computation — is moved to the front (last, left-most) position of the
hand of the giver with the relative order of the other cards preserved; when the
chop already is the front card, the hand of the giver is unchanged. -/
theorem clue_card_cycle (s : GameState) (cl : MsgClue) (giver : Nat)
    (list : List Nat) (target : Nat) (ign : Bool)
    (playing shadowing finished hypothetical : Bool) (m : GameMetadata)
    (ourNotes : Option (List CardNote)) (s2 : GameState) (giverHand : List Nat)
    (hcc : m.options.cardCycle = true)
    (hg : s.hands.get? giver = some giverHand)
    (h : gameStateReducer s (GameAction.clue cl giver list target ign)
      playing shadowing finished hypothetical m ourNotes = Except.ok s2) :
    (chopIndex giverHand s.deck = giverHand.length - 1 →
      s2.hands.get? giver = some giverHand) ∧
    (chopIndex giverHand s.deck ≠ giverHand.length - 1 →
      ∃ chopCard, giverHand.get? (chopIndex giverHand s.deck) = some chopCard ∧
        s2.hands.get? giver =
          some (giverHand.eraseIdx (chopIndex giverHand s.deck) ++ [chopCard])) := by
  rcases gameStateReducer_ok_elim h rfl with ⟨s1, hb, hp⟩
  simp only [actionBranch] at hb
  have hhands1 := clueBranch_ok_hands hg hb
  have hframe := applyPipeline_ok_frame hp
  have hlt : giver < s.hands.length := by
    by_contra hcon
    rw [List.get?_eq_none.2 (by omega)] at hg
    exact Option.noConfusion hg
  have hget : s2.hands.get? giver = some (cardCycle giverHand s.deck m) := by
    rw [hframe.2.2.2.1, hhands1]
    exact List.get?_set_eq_of_lt _ hlt
  constructor
  · intro hchop
    rw [hget]
    unfold cardCycle
    rw [hcc]
    simp [hchop]
  · intro hchop
    have hlt2 : chopIndex giverHand s.deck < giverHand.length := by
      unfold chopIndex at *
      cases hf : giverHand.findIdx? (fun o =>
          !((s.deck.find? (fun c => c.order == o)).any isClued)) with
      | none =>
        rw [hf] at hchop
        exact absurd rfl hchop
      | some idx => exact (List.findIdx?_eq_some_iff_findIdx_eq.1 hf).1
    obtain ⟨chopCard, hc2⟩ : ∃ cc,
        giverHand.get? (chopIndex giverHand s.deck) = some cc := by
      cases hcg : giverHand.get? (chopIndex giverHand s.deck) with
      | none => exact absurd (List.get?_eq_none.1 hcg) (by omega)
      | some cc => exact ⟨cc, rfl⟩
    refine ⟨chopCard, hc2, ?_⟩
    rw [hget]
    unfold cardCycle
    rw [hcc]
    simp only [Bool.not_true, Bool.false_eq_true, if_false, hc2]
    rw [if_neg (by simpa using hchop)]

/-- Witness for C8: with card cycling on, the chop of the fully unclued giver hand
is its first (rightmost) card, which rotates to the end (left-most position). -/
theorem clue_card_cycle_witness :
    (chopIndex [0, 1, 2, 3, 4] exampleState.deck = [0, 1, 2, 3, 4].length - 1 →
      (okStateOf (gameStateReducer exampleState
          (GameAction.clue ⟨ClueType.Rank, 1⟩ 0 [5] 1 false)
          true false false false cardCycleMetadata none) exampleState).hands.get? 0 =
        some [0, 1, 2, 3, 4]) ∧
    (chopIndex [0, 1, 2, 3, 4] exampleState.deck ≠ [0, 1, 2, 3, 4].length - 1 →
      ∃ chopCard,
        [0, 1, 2, 3, 4].get? (chopIndex [0, 1, 2, 3, 4] exampleState.deck) =
          some chopCard ∧
        (okStateOf (gameStateReducer exampleState
            (GameAction.clue ⟨ClueType.Rank, 1⟩ 0 [5] 1 false)
            true false false false cardCycleMetadata none) exampleState).hands.get? 0 =
          some ([0, 1, 2, 3, 4].eraseIdx
            (chopIndex [0, 1, 2, 3, 4] exampleState.deck) ++ [chopCard])) :=
  clue_card_cycle exampleState ⟨ClueType.Rank, 1⟩ 0 [5] 1 false
    true false false false cardCycleMetadata none _ [0, 1, 2, 3, 4] rfl rfl rfl

theorem clueBranch_ok_log {s : GameState} {cl : MsgClue} {giver : Nat}
    {list : List Nat} {target : Nat} {ign : Bool} {variant : Variant}
    {hypothetical : Bool} {m : GameMetadata} {s1 : GameState}
    (h : clueBranch s cl giver list target ign variant hypothetical m =
      Except.ok s1) :
    ∃ txt, s1.log = s.log ++ [mkLogEntry (s.turn.turnNum + 1) txt] := by
  unfold clueBranch at h
  simp only [] at h
  split at h
  · exact Except.noConfusion h
  · split at h
    · exact Except.noConfusion h
    · split at h
      · exact Except.noConfusion h
      · rename_i text htext
        split at h
        · cases h
          exact ⟨text, rfl⟩
        · split at h
          · exact Except.noConfusion h
          · cases h
            exact ⟨text, rfl⟩

theorem playBranch_ok_log {s : GameState} {playerIndex order : Nat}
    {suitIndex rank : Option Int} {variant : Variant}
    {playing shadowing finished hypothetical : Bool} {m : GameMetadata}
    {s1 : GameState}
    (h : playBranch s playerIndex order suitIndex rank variant playing shadowing
      finished hypothetical m = Except.ok s1) :
    ∃ e : LogEntry, s1.log = s.log ++ [e] ∧ e.turn = s.turn.turnNum + 1 := by
  unfold playBranch at h
  split at h
  · exact Except.noConfusion h
  · rename_i hand hh
    simp only [] at h
    split at h
    · exact Except.noConfusion h
    · rename_i sB hstep
      have h1 := playStep_ok_frame hstep
      have h2 := playFinish_ok h
      obtain ⟨c, hc, hlog⟩ := h2.2.1
      have hturnB : sB.turn = s.turn := h1.2.2.1
      refine ⟨mkLogEntry (s.turn.turnNum + 1)
        (textPlay playerIndex suitIndex rank (removeFromHand hand order).1
          (isClued c) playing shadowing hypothetical m), ?_, rfl⟩
      rw [hlog, h1.2.1, hturnB]

theorem discardBranch_ok_log {s : GameState} {playerIndex order : Nat}
    {suitIndex rank : Option Int} {failed : Bool} {variant : Variant}
    {playing shadowing finished hypothetical : Bool} {m : GameMetadata}
    {s1 : GameState}
    (h : discardBranch s playerIndex order suitIndex rank failed variant playing
      shadowing finished hypothetical m = Except.ok s1) :
    ∃ e : LogEntry, s1.log = s.log ++ [e] ∧ e.turn = s.turn.turnNum + 1 := by
  unfold discardBranch at h
  split at h
  · exact Except.noConfusion h
  · rename_i hand hh
    simp only [] at h
    split at h
    · exact Except.noConfusion h
    · rename_i sB hstep
      have h1 := discardStep_ok_frame hstep
      have h2 := discardFinish_ok h
      obtain ⟨c, hc, hlog⟩ := h2.1
      have hturnB : sB.turn = s.turn := h1.2.2.1
      refine ⟨mkLogEntry (s.turn.turnNum + 1)
        (textDiscard playerIndex suitIndex rank failed
          (removeFromHand hand order).1 (isClued c) playing shadowing
          hypothetical m), ?_, rfl⟩
      rw [hlog, h1.2.1, hturnB]

theorem drawBranch_ok_log {s : GameState} {playerIndex order : Nat}
    {suitIndex rank : Option Int} {m : GameMetadata} {s1 : GameState}
    (h : drawBranch s playerIndex order suitIndex rank m = Except.ok s1) :
    (isInitialDealFinished (s.cardsRemainingInTheDeck - 1) m = true →
      ∃ e : LogEntry, s1.log = s.log ++ [e] ∧ e.turn = s.turn.turnNum + 1) ∧
    (isInitialDealFinished (s.cardsRemainingInTheDeck - 1) m = false →
      s1.log = s.log) := by
  unfold drawBranch at h
  simp only [] at h
  cases hh : s.hands.get? playerIndex with
  | some hand =>
    rw [hh] at h
    simp only [] at h
    constructor
    · intro hd
      rw [hd] at h
      simp only [if_true] at h
      cases h
      exact ⟨_, rfl, rfl⟩
    · intro hd
      rw [hd] at h
      simp only [Bool.false_eq_true, if_false] at h
      cases h
      rfl
  | none =>
    rw [hh] at h
    simp only [] at h
    constructor
    · intro hd
      rw [hd] at h
      simp only [if_true] at h
      cases h
      exact ⟨_, rfl, rfl⟩
    · intro hd
      rw [hd] at h
      simp only [Bool.false_eq_true, if_false] at h
      cases h
      rfl

theorem gameOverBranch_ok_log {s : GameState} {endCondition : EndCondition}
    {playerIndex : Nat} {votes : Option (List Nat)} {m : GameMetadata}
    {s1 : GameState}
    (h : gameOverBranch s endCondition playerIndex votes m = Except.ok s1) :
    ∃ e : LogEntry, s1.log = s.log ++ [e] ∧ e.turn = s.turn.turnNum + 1 := by
  unfold gameOverBranch at h
  simp only [] at h
  split at h <;>
    · cases h
      exact ⟨_, rfl, rfl⟩

theorem playerTimesBranch_ok_log {s : GameState} {times : List Int}
    {duration : Int} {m : GameMetadata} {s1 : GameState}
    (h : playerTimesBranch s times duration m = Except.ok s1) :
    ∃ es, s1.log = s.log ++ es ∧ es ≠ [] ∧
      ∀ e ∈ es, e.turn = s.turn.turnNum + 1 := by
  unfold playerTimesBranch at h
  cases h
  refine ⟨_, List.append_assoc _ _ _, ?_, ?_⟩
  · simp
  · intro e he
    rcases List.mem_append.1 he with he | he
    · obtain ⟨p, hp, rfl⟩ := List.mem_map.1 he
      rfl
    · rcases List.mem_singleton.1 he with rfl
      rfl

theorem strikeBranch_ok_log {s : GameState} {order : Nat} {s1 : GameState}
    (h : strikeBranch s order = Except.ok s1) : s1.log = s.log := by
  unfold strikeBranch at h
  cases h
  rfl

/-- The action kinds whose branch always appends at least one log entry. -/
def alwaysNarrates (a : GameAction) : Bool :=
  match a with
  | GameAction.clue _ _ _ _ _ => true
  | GameAction.discard _ _ _ _ _ => true
  | GameAction.play _ _ _ _ => true
  | GameAction.gameOver _ _ _ => true
  | GameAction.playerTimes _ _ => true
  | _ => false

/-- Counterexample to C9 as stated: a `strike` action is not in the claimed
narration-free set, yet its branch appends no log entry — on a state whose log is
empty, the resulting log is still empty while the action succeeds. -/
theorem strike_appends_no_log :
    (gameStateReducer exampleState (GameAction.strike 1 3 2) false false false
        false exampleMetadata none).map GameState.log =
      Except.ok exampleState.log := by
  rfl

/-- C9 (amended): for every `clue`, `discard`, `play`, `gameOver` and
`playerTimes` action the branch appends one or more entries to `log`, each tagged
with the 1-based turn number in effect at action time; a `draw` appends such an
entry exactly when it completes the initial deal; a `strike` appends no log entry
(it records to `strikes` instead). -/
theorem log_append_turn_tagged (s : GameState) (a : GameAction)
    (playing shadowing finished hypothetical : Bool) (m : GameMetadata)
    (ourNotes : Option (List CardNote)) (s2 : GameState)
    (h : gameStateReducer s a playing shadowing finished hypothetical m ourNotes =
      Except.ok s2) :
    (alwaysNarrates a = true → ∃ es, s2.log = s.log ++ es ∧ es ≠ [] ∧
      ∀ e ∈ es, e.turn = s.turn.turnNum + 1) ∧
    (∀ pI o si r, a = GameAction.draw pI o si r →
      (isInitialDealFinished (s.cardsRemainingInTheDeck - 1) m = true →
        ∃ e : LogEntry, s2.log = s.log ++ [e] ∧ e.turn = s.turn.turnNum + 1) ∧
      (isInitialDealFinished (s.cardsRemainingInTheDeck - 1) m = false →
        s2.log = s.log)) ∧
    (∀ num tn o, a = GameAction.strike num tn o → s2.log = s.log) := by
  refine ⟨?_, ?_, ?_⟩
  · intro hn
    cases a with
    | clue cl giver list target ign =>
      rcases gameStateReducer_ok_elim h rfl with ⟨s1, hb, hp⟩
      simp only [actionBranch] at hb
      obtain ⟨txt, hlog⟩ := clueBranch_ok_log hb
      have hframe := applyPipeline_ok_frame hp
      refine ⟨[mkLogEntry (s.turn.turnNum + 1) txt], ?_, by simp, ?_⟩
      · rw [hframe.2.1, hlog]
      · intro e he
        rcases List.mem_singleton.1 he with rfl
        rfl
    | discard pI o si r failed =>
      rcases gameStateReducer_ok_elim h rfl with ⟨s1, hb, hp⟩
      simp only [actionBranch] at hb
      obtain ⟨e, hlog, hturn⟩ := discardBranch_ok_log hb
      have hframe := applyPipeline_ok_frame hp
      refine ⟨[e], ?_, by simp, ?_⟩
      · rw [hframe.2.1, hlog]
      · intro e2 he2
        rcases List.mem_singleton.1 he2 with rfl
        exact hturn
    | play pI o si r =>
      rcases gameStateReducer_ok_elim h rfl with ⟨s1, hb, hp⟩
      simp only [actionBranch] at hb
      obtain ⟨e, hlog, hturn⟩ := playBranch_ok_log hb
      have hframe := applyPipeline_ok_frame hp
      refine ⟨[e], ?_, by simp, ?_⟩
      · rw [hframe.2.1, hlog]
      · intro e2 he2
        rcases List.mem_singleton.1 he2 with rfl
        exact hturn
    | gameOver endCondition pI votes =>
      rcases gameStateReducer_ok_elim h rfl with ⟨s1, hb, hp⟩
      simp only [actionBranch] at hb
      obtain ⟨e, hlog, hturn⟩ := gameOverBranch_ok_log hb
      have hframe := applyPipeline_ok_frame hp
      refine ⟨[e], ?_, by simp, ?_⟩
      · rw [hframe.2.1, hlog]
      · intro e2 he2
        rcases List.mem_singleton.1 he2 with rfl
        exact hturn
    | playerTimes times duration =>
      rcases gameStateReducer_ok_elim h rfl with ⟨s1, hb, hp⟩
      simp only [actionBranch] at hb
      obtain ⟨es, hlog, hne, hturn⟩ := playerTimesBranch_ok_log hb
      have hframe := applyPipeline_ok_frame hp
      refine ⟨es, ?_, hne, hturn⟩
      rw [hframe.2.1, hlog]
    | draw pI o si r => simp [alwaysNarrates] at hn
    | strike num tn o => simp [alwaysNarrates] at hn
    | setEffMod => simp [alwaysNarrates] at hn
    | editNote => simp [alwaysNarrates] at hn
    | noteList => simp [alwaysNarrates] at hn
    | noteListPlayer => simp [alwaysNarrates] at hn
    | receiveNote => simp [alwaysNarrates] at hn
    | turn => simp [alwaysNarrates] at hn
    | cardIdentity => simp [alwaysNarrates] at hn
  · intro pI o si r ha
    subst ha
    rcases gameStateReducer_ok_elim h rfl with ⟨s1, hb, hp⟩
    simp only [actionBranch] at hb
    have hd := drawBranch_ok_log hb
    have hframe := applyPipeline_ok_frame hp
    constructor
    · intro hfin
      obtain ⟨e, hlog, hturn⟩ := hd.1 hfin
      exact ⟨e, by rw [hframe.2.1, hlog], hturn⟩
    · intro hfin
      rw [hframe.2.1, hd.2 hfin]
  · intro num tn o ha
    subst ha
    rcases gameStateReducer_ok_elim h rfl with ⟨s1, hb, hp⟩
    simp only [actionBranch] at hb
    have hframe := applyPipeline_ok_frame hp
    rw [hframe.2.1, strikeBranch_ok_log hb]

/-- Witness for C9 (amended) at a concrete `gameOver` action. -/
theorem log_append_turn_tagged_witness :
    ((alwaysNarrates (GameAction.gameOver EndCondition.Timeout 0 none) = true →
      ∃ es, (okStateOf (gameStateReducer exampleState
          (GameAction.gameOver EndCondition.Timeout 0 none)
          false false false false exampleMetadata none) exampleState).log =
        exampleState.log ++ es ∧ es ≠ [] ∧
        ∀ e ∈ es, e.turn = exampleState.turn.turnNum + 1) ∧
    (∀ pI o si r, GameAction.gameOver EndCondition.Timeout 0 none =
        GameAction.draw pI o si r →
      (isInitialDealFinished (exampleState.cardsRemainingInTheDeck - 1)
          exampleMetadata = true →
        ∃ e : LogEntry, (okStateOf (gameStateReducer exampleState
            (GameAction.gameOver EndCondition.Timeout 0 none)
            false false false false exampleMetadata none) exampleState).log =
          exampleState.log ++ [e] ∧ e.turn = exampleState.turn.turnNum + 1) ∧
      (isInitialDealFinished (exampleState.cardsRemainingInTheDeck - 1)
          exampleMetadata = false →
        (okStateOf (gameStateReducer exampleState
            (GameAction.gameOver EndCondition.Timeout 0 none)
            false false false false exampleMetadata none) exampleState).log =
          exampleState.log)) ∧
    (∀ num tn o, GameAction.gameOver EndCondition.Timeout 0 none =
        GameAction.strike num tn o →
      (okStateOf (gameStateReducer exampleState
          (GameAction.gameOver EndCondition.Timeout 0 none)
          false false false false exampleMetadata none) exampleState).log =
        exampleState.log)) :=
  log_append_turn_tagged exampleState
    (GameAction.gameOver EndCondition.Timeout 0 none)
    false false false false exampleMetadata none _ rfl

theorem playStep_ok_hole_frame {sA : GameState} {playerIndex order : Nat}
    {suitIndex rank : Option Int} {variant : Variant}
    {playing shadowing finished : Bool} {sB : GameState}
    (hred : holeRedirects (GameAction.play playerIndex order suitIndex rank)
      variant playing shadowing finished = false)
    (h : playStep sA playerIndex order suitIndex rank variant playing shadowing
      finished = Except.ok sB) :
    sB.hole = sA.hole ∧
    sB.numAttemptedCardsPlayed = sA.numAttemptedCardsPlayed := by
  unfold playStep at h
  rw [tih_eq, hred] at h
  simp only [Bool.false_eq_true, if_false] at h
  cases suitIndex with
  | none => exact Except.noConfusion h
  | some i =>
    simp only [] at h
    split at h
    · exact Except.noConfusion h
    · split at h
      · exact Except.noConfusion h
      · cases h
        exact ⟨rfl, rfl⟩

theorem discardStep_ok_hole_frame {sA : GameState} {playerIndex order : Nat}
    {suitIndex rank : Option Int} {failed : Bool} {variant : Variant}
    {playing shadowing finished : Bool} {sB : GameState}
    (hred : holeRedirects
      (GameAction.discard playerIndex order suitIndex rank failed)
      variant playing shadowing finished = false)
    (h : discardStep sA playerIndex order suitIndex rank failed variant playing
      shadowing finished = Except.ok sB) :
    sB.hole = sA.hole ∧
    sB.numAttemptedCardsPlayed = sA.numAttemptedCardsPlayed := by
  unfold discardStep at h
  rw [tih_eq, hred] at h
  simp only [Bool.false_eq_true, if_false] at h
  cases suitIndex with
  | none => exact Except.noConfusion h
  | some i =>
    simp only [] at h
    split at h
    · exact Except.noConfusion h
    · split at h
      · exact Except.noConfusion h
      · cases h
        exact ⟨rfl, rfl⟩

theorem playBranch_ok_hole_frame {s : GameState} {playerIndex order : Nat}
    {suitIndex rank : Option Int} {variant : Variant}
    {playing shadowing finished hypothetical : Bool} {m : GameMetadata}
    {s1 : GameState}
    (hred : holeRedirects (GameAction.play playerIndex order suitIndex rank)
      variant playing shadowing finished = false)
    (h : playBranch s playerIndex order suitIndex rank variant playing shadowing
      finished hypothetical m = Except.ok s1) :
    s1.hole = s.hole ∧
    s1.numAttemptedCardsPlayed = s.numAttemptedCardsPlayed := by
  unfold playBranch at h
  split at h
  · exact Except.noConfusion h
  · simp only [] at h
    split at h
    · exact Except.noConfusion h
    · rename_i sB hstep
      have h1 := playStep_ok_hole_frame hred hstep
      have h2 := playFinish_ok h
      exact ⟨by rw [h2.2.2.2.2.1, h1.1], by rw [h2.2.2.2.2.2.1, h1.2]⟩

theorem discardBranch_ok_hole_frame {s : GameState} {playerIndex order : Nat}
    {suitIndex rank : Option Int} {failed : Bool} {variant : Variant}
    {playing shadowing finished hypothetical : Bool} {m : GameMetadata}
    {s1 : GameState}
    (hred : holeRedirects
      (GameAction.discard playerIndex order suitIndex rank failed)
      variant playing shadowing finished = false)
    (h : discardBranch s playerIndex order suitIndex rank failed variant playing
      shadowing finished hypothetical m = Except.ok s1) :
    s1.hole = s.hole ∧
    s1.numAttemptedCardsPlayed = s.numAttemptedCardsPlayed := by
  unfold discardBranch at h
  split at h
  · exact Except.noConfusion h
  · simp only [] at h
    split at h
    · exact Except.noConfusion h
    · rename_i sB hstep
      have h1 := discardStep_ok_hole_frame hred hstep
      have h2 := discardFinish_ok h
      exact ⟨by rw [h2.2.2.2.2.1, h1.1], by rw [h2.2.2.2.2.2.1, h1.2]⟩

/-- Counterexample to C10 as stated: in a throw-it-in-a-hole variant while
playing, a `play` with the negative suit index `-2` and a valid rank does satisfy
the redirection condition, yet the reducer raises an error (the card-status
recomputation reads `cardStatus[-2]`, which is `undefined`), so a negative suit
index other than the `-1` sentinel is not error-free on that path. -/
theorem hole_negative_suit_error :
    holeRedirects (GameAction.play 0 2 (some (-2)) (some 1))
      (getVariant holeMetadata.options.variantName) true false false = true ∧
    gameStateReducer exampleState (GameAction.play 0 2 (some (-2)) (some 1)) true
        false false false holeMetadata none =
      Except.error "TypeError: Cannot set properties of undefined (setting cardStatus)" :=
  ⟨rfl, rfl⟩

/-- C10 (amended): a `play` or `discard` is redirected to the hole exactly when
the variant has throw-it-in-a-hole, the caller is playing or shadowing, the game
is not finished, and the action is a play or a failed discard.  When redirection
happens with the `-1` sentinel suit index (or rank), the card order is appended to
`hole`, `numAttemptedCardsPlayed` is incremented by one, and the suit-index
validity check, the stack push and the clue-token gain are all skipped — no error
is raised despite the negative suit index.  (A negative suit index other than `-1`
combined with a valid rank still fails later, at the card-status recomputation.)
When redirection does not happen, any successful application leaves `hole` and
`numAttemptedCardsPlayed` unchanged. -/
theorem hole_redirection (s : GameState) (playerIndex order : Nat)
    (si r : Option Int) (failed : Bool)
    (playing shadowing finished hypothetical : Bool) (m : GameMetadata)
    (ourNotes : Option (List CardNote)) (a : GameAction) (hand : List Nat)
    (c : CardState)
    (ha : a = GameAction.play playerIndex order si r ∨
      a = GameAction.discard playerIndex order si r failed) :
    (holeRedirects a (getVariant m.options.variantName) playing shadowing
        finished = true →
      (si = some (-1) ∨ r = some (-1)) →
      s.hands.get? playerIndex = some hand →
      s.deck.get? order = some c →
      ∃ s2, gameStateReducer s a playing shadowing finished hypothetical m
          ourNotes = Except.ok s2 ∧
        s2.hole = s.hole ++ [order] ∧
        s2.numAttemptedCardsPlayed = s.numAttemptedCardsPlayed + 1 ∧
        s2.playStacks = s.playStacks ∧ s2.discardStacks = s.discardStacks ∧
        s2.clueTokens = s.clueTokens) ∧
    (holeRedirects a (getVariant m.options.variantName) playing shadowing
        finished = false →
      ∀ s2, gameStateReducer s a playing shadowing finished hypothetical m
          ourNotes = Except.ok s2 →
        s2.hole = s.hole ∧
        s2.numAttemptedCardsPlayed = s.numAttemptedCardsPlayed) := by
  constructor
  · intro hr hskip hhand hdeck
    rcases ha with rfl | rfl
    · have hbr : playBranch s playerIndex order si r
          (getVariant m.options.variantName) playing shadowing finished
          hypothetical m =
          Except.ok { s with
            hands := s.hands.set playerIndex (removeFromHand hand order).2,
            hole := s.hole ++ [order],
            numAttemptedCardsPlayed := s.numAttemptedCardsPlayed + 1,
            score := s.score + 1,
            log := s.log ++ [mkLogEntry (s.turn.turnNum + 1)
              (textPlay playerIndex si r (removeFromHand hand order).1
                (isClued c) playing shadowing hypothetical m)] } := by
        unfold playBranch
        rw [hhand]
        simp only []
        rw [playStep_ok_redirect hr]
        show playFinish _ playerIndex order si r (removeFromHand hand order).1
          playing shadowing hypothetical m = _
        exact playFinish_run hdeck
      obtain ⟨s2, hpipe⟩ :=
        @applyPipeline_ok_exists_of_skip s _ (getVariant m.options.variantName)
          playing shadowing m ourNotes playerIndex order si r failed
          (GameAction.play playerIndex order si r) (Or.inl rfl) hskip
      have hframe := applyPipeline_ok_frame hpipe
      refine ⟨s2, ?_, ?_, ?_, ?_, ?_, ?_⟩
      · unfold gameStateReducer gameStateReducerFunction
        simp only []
        rw [show actionBranch s (GameAction.play playerIndex order si r)
            (getVariant m.options.variantName) playing shadowing finished
            hypothetical m =
          playBranch s playerIndex order si r (getVariant m.options.variantName)
            playing shadowing finished hypothetical m from rfl]
        rw [hbr]
        exact hpipe
      · rw [hframe.2.2.2.2.1]
      · rw [hframe.2.2.2.2.2.1]
      · rw [hframe.2.2.2.2.2.2.1]
      · rw [hframe.2.2.2.2.2.2.2.1]
      · rw [hframe.2.2.1]
    · have hbr : discardBranch s playerIndex order si r failed
          (getVariant m.options.variantName) playing shadowing finished
          hypothetical m =
          Except.ok { s with
            hands := s.hands.set playerIndex (removeFromHand hand order).2,
            hole := s.hole ++ [order],
            numAttemptedCardsPlayed := s.numAttemptedCardsPlayed + 1,
            log := s.log ++ [mkLogEntry (s.turn.turnNum + 1)
              (textDiscard playerIndex si r failed (removeFromHand hand order).1
                (isClued c) playing shadowing hypothetical m)] } := by
        unfold discardBranch
        rw [hhand]
        simp only []
        rw [discardStep_ok_redirect hr]
        show discardFinish _ playerIndex order si r failed
          (removeFromHand hand order).1 playing shadowing hypothetical m = _
        exact discardFinish_run hdeck
      obtain ⟨s2, hpipe⟩ :=
        @applyPipeline_ok_exists_of_skip s _ (getVariant m.options.variantName)
          playing shadowing m ourNotes playerIndex order si r failed
          (GameAction.discard playerIndex order si r failed) (Or.inr rfl) hskip
      have hframe := applyPipeline_ok_frame hpipe
      refine ⟨s2, ?_, ?_, ?_, ?_, ?_, ?_⟩
      · unfold gameStateReducer gameStateReducerFunction
        simp only []
        rw [show actionBranch s
            (GameAction.discard playerIndex order si r failed)
            (getVariant m.options.variantName) playing shadowing finished
            hypothetical m =
          discardBranch s playerIndex order si r failed
            (getVariant m.options.variantName) playing shadowing finished
            hypothetical m from rfl]
        rw [hbr]
        exact hpipe
      · rw [hframe.2.2.2.2.1]
      · rw [hframe.2.2.2.2.2.1]
      · rw [hframe.2.2.2.2.2.2.1]
      · rw [hframe.2.2.2.2.2.2.2.1]
      · rw [hframe.2.2.1]
  · intro hr s2 h
    rcases ha with rfl | rfl
    · rcases gameStateReducer_ok_elim h rfl with ⟨s1, hb, hp⟩
      have hframe := applyPipeline_ok_frame hp
      simp only [actionBranch] at hb
      have hbf := playBranch_ok_hole_frame hr hb
      exact ⟨by rw [hframe.2.2.2.2.1, hbf.1],
        by rw [hframe.2.2.2.2.2.1, hbf.2]⟩
    · rcases gameStateReducer_ok_elim h rfl with ⟨s1, hb, hp⟩
      have hframe := applyPipeline_ok_frame hp
      simp only [actionBranch] at hb
      have hbf := discardBranch_ok_hole_frame hr hb
      exact ⟨by rw [hframe.2.2.2.2.1, hbf.1],
        by rw [hframe.2.2.2.2.2.1, hbf.2]⟩

/-- Witness for C10 (amended) at a concrete throw-it-in-a-hole play with the `-1`
sentinel suit index. -/
theorem hole_redirection_witness :
    ((holeRedirects (GameAction.play 0 2 (some (-1)) (some 1))
        (getVariant holeMetadata.options.variantName) true false false = true →
      (some (-1) = some (-1) ∨ (some 1 : Option Int) = some (-1)) →
      exampleState.hands.get? 0 = some [0, 1, 2, 3, 4] →
      exampleState.deck.get? 2 = some (mkCard 2 2 1) →
      ∃ s2, gameStateReducer exampleState (GameAction.play 0 2 (some (-1)) (some 1))
          true false false false holeMetadata none = Except.ok s2 ∧
        s2.hole = exampleState.hole ++ [2] ∧
        s2.numAttemptedCardsPlayed = exampleState.numAttemptedCardsPlayed + 1 ∧
        s2.playStacks = exampleState.playStacks ∧
        s2.discardStacks = exampleState.discardStacks ∧
        s2.clueTokens = exampleState.clueTokens) ∧
    (holeRedirects (GameAction.play 0 2 (some (-1)) (some 1))
        (getVariant holeMetadata.options.variantName) true false false = false →
      ∀ s2, gameStateReducer exampleState (GameAction.play 0 2 (some (-1)) (some 1))
          true false false false holeMetadata none = Except.ok s2 →
        s2.hole = exampleState.hole ∧
        s2.numAttemptedCardsPlayed = exampleState.numAttemptedCardsPlayed)) :=
  hole_redirection exampleState 0 2 (some (-1)) (some 1) false true false false
    false holeMetadata none (GameAction.play 0 2 (some (-1)) (some 1))
    [0, 1, 2, 3, 4] (mkCard 2 2 1) (Or.inl rfl)

end HanabiLive
